import Mathlib

/-!
Shallow embedding of `scripts/get_cbmonitor_data.py`.

The script downloads cbmonitor metric series and a Jenkins console log,
scrapes identifiers out of the log, reduces each metric series to a mean
or maximum, and writes per-job JSON files plus one aggregated CSV.

Modelling conventions:
* Text is `String` (scraping works on `String.data`, i.e. `List Char`).
* Numbers are `Rat` (the Python floats in the claims are exactly
  representable, so exact rational arithmetic models them faithfully).
* The network is an environment `Env` mapping a URL to either a transport
  error (the `repr` of the `urllib2.URLError`) or a response payload.  A
  payload is either plain text (a console log) or an already-parsed JSON
  array of `[timestamp, value]` pairs (the body together with the
  `json.loads` the script immediately applies to it).
* Python exceptions become the `PyError` sum; fallible code returns
  `Except PyError`.
* The filesystem always accepts writes; written files are collected in the
  run result.
-/

deriving instance DecidableEq for Except

/-- Python exceptions that the script can raise. -/
inductive PyError where
  /-- `raise Exception(msg)` from `downloadData`. -/
  | exception (msg : String)
  /-- `ZeroDivisionError` from dividing by a zero length. -/
  | zeroDivisionError
  /-- `ValueError` from `json.loads` on a non-JSON body. -/
  | valueError
  /-- `AttributeError` from calling `.group(0)` on a failed `re.search`. -/
  | attributeError
  /-- `IndexError` from indexing `[1]` into a too-short `split` result. -/
  | indexError
  /-- `NameError` from referencing a never-bound variable. -/
  | nameError
  /-- `SystemExit` from `sys.exit()`. -/
  | systemExit
deriving DecidableEq, Repr

/-- A network response body, as the script consumes it: either plain text
(console logs) or a JSON array of `[timestamp, value]` pairs. -/
inductive Payload where
  | text (s : String)
  | series (xs : List (Rat × Rat))
deriving DecidableEq, Repr

/-- The network environment: what a GET of each URL returns.  `.error e`
models a transport failure whose `repr` is `e`. -/
structure Env where
  net : String → Except String Payload

/-- The fixed prefix of the exception message raised by `downloadData`
(source line 42-43); `%r` of the underlying error is appended. -/
def urlopenErrMsg : String :=
  "'urlopen' error, url not correct or user not connected to VPN: "

/-- `downloadData(url)` (source lines 35-44): perform the GET; on a
transport error raise `Exception` whose message is the fixed prefix plus
the `repr` of the underlying `URLError`. -/
def downloadData (env : Env) (url : String) : Except PyError Payload :=
  match env.net url with
  | .error e => .error (.exception (urlopenErrMsg ++ e))
  | .ok p => .ok p

/-- `json.loads` of a downloaded body, at the type the script expects: a
text body that is not a JSON series raises `ValueError`. -/
def asSeries : Payload → Except PyError (List (Rat × Rat))
  | .text _ => .error .valueError
  | .series xs => .ok xs

/-- A console body; a JSON-series body is not a console log. -/
def asText : Payload → Except PyError String
  | .text s => .ok s
  | .series _ => .error .valueError

/-- `getAverage(url)` (source lines 47-52): sum the second components,
then divide by the length (raising `ZeroDivisionError` when empty). -/
def getAverage (env : Env) (url : String) : Except PyError Rat :=
  match downloadData env url with
  | .error e => .error e
  | .ok p =>
    match asSeries p with
    | .error e => .error e
    | .ok pairs =>
      let accumulator : Rat := pairs.foldl (fun a q => a + q.2) 0
      if pairs.length = 0 then .error .zeroDivisionError
      else .ok (accumulator / (pairs.length : Rat))

/-- `getAverageFromList(urls, per_single_node)` (source lines 55-59):
accumulate `getAverage` over the list; divide by the list length only when
`per_single_node` is true. -/
def getAverageFromList (env : Env) (urls : List String) (per_single_node : Bool) :
    Except PyError Rat :=
  match urls.foldlM (fun a url =>
      match getAverage env url with
      | .error e => Except.error e
      | .ok v => Except.ok (a + v)) (0 : Rat) with
  | .error e => .error e
  | .ok accumulator =>
    if per_single_node then
      if urls.length = 0 then .error .zeroDivisionError
      else .ok (accumulator / (urls.length : Rat))
    else .ok accumulator

/-- `getMax(url)` (source lines 62-69): start from `0.0` and keep any
strictly larger second component. -/
def getMax (env : Env) (url : String) : Except PyError Rat :=
  match downloadData env url with
  | .error e => .error e
  | .ok p =>
    match asSeries p with
    | .error e => .error e
    | .ok pairs =>
      .ok (pairs.foldl (fun maximum q => if q.2 > maximum then q.2 else maximum) 0)

/-- The arithmetic mean of the second components, as the spec phrases it
("arithmetic mean of the second element across all pairs"); used to state
claims about the reducers. -/
def meanOf (xs : List (Rat × Rat)) : Rat :=
  (xs.map Prod.snd).sum / (xs.length : Rat)

/-! ## Text scraping primitives

The script searches the console log with `str.find`, `re.search(pat + ".*")`,
`re.findall(pat + ".*")`, `str.split`, `str.strip` and `str.replace`.  These
are modelled on `List Char`. -/

/-- `isPre n s` : `n` is a prefix of `s` (character-wise). -/
def isPre : List Char → List Char → Bool
  | [], _ => true
  | _ :: _, [] => false
  | a :: as, b :: bs => a = b && isPre as bs

/-- Index of the first occurrence of `needle` in `hay` (Python
`str.find`, with `none` for `-1`). -/
def findSub (needle : List Char) : List Char → Option Nat
  | [] => if isPre needle [] then some 0 else none
  | c :: t =>
    if isPre needle (c :: t) then some 0
    else (findSub needle t).map (· + 1)

/-- `re.search(pat ++ ".*", hay).group(0)` for a literal `pat` with no
newline: the first occurrence of `pat` extended to the end of its line
(`.` does not match a newline). -/
def searchToEOL (pat : List Char) (hay : List Char) : Option (List Char) :=
  match findSub pat hay with
  | none => none
  | some i => some ((hay.drop i).takeWhile (fun c => c != '\n'))

/-- `s.split(sep)[1]`: the segment strictly between the first occurrence of
`sep` and the following occurrence (or the end); `none` when `sep` does not
occur (Python would raise `IndexError` on the `[1]`). -/
def pyAfterFirst (sep s : List Char) : Option (List Char) :=
  match findSub sep s with
  | none => none
  | some i =>
    let r := s.drop (i + sep.length)
    some (match findSub sep r with
          | none => r
          | some j => r.take j)

/-- Python whitespace stripped by `str.strip()`. -/
def isPySpace (c : Char) : Bool :=
  c = ' ' || c = '\t' || c = '\n' || c = '\r' || c = '\x0b' || c = '\x0c'

/-- `s.strip()`. -/
def pyStrip (s : List Char) : List Char :=
  ((s.dropWhile isPySpace).reverse.dropWhile isPySpace).reverse

/-- `s.split(c)` for a one-character separator (used for `job.split(":")`). -/
def splitChar (c : Char) : List Char → List (List Char)
  | [] => [[]]
  | x :: xs =>
    match splitChar c xs with
    | [] => [[x]]
    | h :: t => if x = c then [] :: h :: t else (x :: h) :: t

/-- `job.split(":")` on a `String`. -/
def pySplitColon (s : String) : List String :=
  (splitChar ':' s.data).map String.mk

/-- Fuel-indexed worker for `re.findall(pat ++ ".*", hay)`: repeatedly find
`pat`, extend the match to the end of its line, and continue after the
match (advancing at least one character, as CPython does after an empty
match). -/
def findAllAux (pat : List Char) : Nat → List Char → List (List Char)
  | 0, _ => []
  | fuel + 1, hay =>
    match findSub pat hay with
    | none => []
    | some i =>
      let m := (hay.drop i).takeWhile (fun c => c != '\n')
      m :: findAllAux pat fuel ((hay.drop i).drop (max 1 m.length))

/-- `re.findall(pat ++ ".*", hay)` for a literal newline-free `pat`. -/
def findAllToEOL (pat hay : List Char) : List (List Char) :=
  findAllAux pat hay.length hay

/-- `"snapshot="` (source line 122/126). -/
def snapMarker : List Char := "snapshot=".data

/-- `"Adding new bucket"` (source line 148). -/
def bucketMarker : List Char := "Adding new bucket".data

/-- `"Getting memcached port from"` (source line 136). -/
def memcMarker : List Char := "Getting memcached port from".data

/-- `"spring_latency"` (source line 194). -/
def springMarker : List Char := "spring_latency".data

/-- `"from"`, the separator of `match.split("from")` (source line 140). -/
def fromSep : List Char := "from".data

/-- `re.search("snapshot=.*", t).group(0).split("=")[1]` (source line 126):
`AttributeError` if the regex does not match, `IndexError` if the match had
no `"="` (impossible, since the match starts with `"snapshot="`). -/
def scrapeSnapshot (t : List Char) : Except PyError (List Char) :=
  match searchToEOL snapMarker t with
  | none => .error .attributeError
  | some m =>
    match pyAfterFirst ['='] m with
    | none => .error .indexError
    | some r => .ok r

/-- `match.split("from")[1].strip().replace(".", "")` for one
`re.findall` match (source line 140). -/
def nodeOfMatch (m : List Char) : Except PyError (List Char) :=
  match pyAfterFirst fromSep m with
  | none => .error .indexError
  | some r => .ok ((pyStrip r).filter (fun c => c != '.'))

/-- The node-address extraction loop (source lines 136-140), before the
`set(...)` de-duplication. -/
def scrapeNodes (t : List Char) : Except PyError (List (List Char)) :=
  (findAllToEOL memcMarker t).mapM nodeOfMatch

/-- `re.search("Adding new bucket.*", t).group(0).split(":")[1].strip()`
(source lines 148-151). -/
def scrapeBucket (t : List Char) : Except PyError (List Char) :=
  match searchToEOL bucketMarker t with
  | none => .error .attributeError
  | some m =>
    match pyAfterFirst [':'] m with
    | none => .error .indexError
    | some r => .ok (pyStrip r)

/-- `hasLatency` (source line 194): whether the log mentions
`spring_latency`. -/
def hasLatencyOf (t : String) : Bool :=
  (findSub springMarker t.data).isSome

/-! ## Record assembly and output -/

/-- Round `100 * x` to the nearest integer, ties to even.  Models the
decimal rounding of Python `'{:.2f}'.format` (the model is exact rational
rounding; the script's values are floats, which agree on the values the
claims exercise). -/
def round2 (x : Rat) : Int :=
  let n : Rat := 100 * x
  let f : Int := ⌊n⌋
  if n - (f : Rat) > 1 / 2 then f + 1
  else if n - (f : Rat) < 1 / 2 then f
  else if f % 2 = 0 then f else f + 1

/-- `'{:.2f}'.format x`: fixed-point rendering with two decimals. -/
def formatF2 (x : Rat) : String :=
  let m := round2 x
  let a := m.natAbs
  let s := toString (a / 100) ++ "." ++ (if a % 100 < 10 then "0" else "") ++ toString (a % 100)
  if m < 0 then "-" ++ s else s

/-- One job record: the dict literal of source lines 196-241, as an
association list in the literal's key order. -/
def Record := List (String × String)
deriving DecidableEq

/-- `byteToMBConversionFactor` (source line 100). -/
def byteToMBConversionFactor : Rat := 1 / (1024 * 1024)

/-- The cbmonitor host (source line 101). -/
def host : String := "http://cbmonitor.sc.couchbase.com:8080"

/-- `host + "/" + "ns_server" + snapshot + "/ops"` (source line 160). -/
def opsURL (snapshot : String) : String :=
  host ++ "/" ++ "ns_server" ++ snapshot ++ "/ops"

/-- `base_url_ns_server + res` (source lines 156, 165-167, 180, 186). -/
def nsURL (snapshot bucket res : String) : String :=
  host ++ "/" ++ "ns_server" ++ snapshot ++ bucket ++ res

/-- `base_url_spring_latency + res` (source lines 157, 162-163). -/
def springURL (snapshot bucket res : String) : String :=
  host ++ "/" ++ "spring_latency" ++ snapshot ++ bucket ++ res

/-- `base_url_iostat + res` (source lines 174-178). -/
def iostatURL (snapshot node res : String) : String :=
  host ++ "/" ++ "iostat" ++ snapshot ++ node ++ res

/-- `base_url_atop + node + res` (source lines 182-190). -/
def atopURL (snapshot node res : String) : String :=
  host ++ "/" ++ "atop" ++ snapshot ++ node ++ res

/-- The URLs the record assembler always fetches (everything except the
two `spring_latency` URLs): used to state the latency-gating claim. -/
def nonLatencyURLs (snapshot bucket : String) (nodes : List String) : List String :=
  [opsURL snapshot,
   nsURL snapshot bucket "/avg_disk_update_time",
   nsURL snapshot bucket "/avg_disk_commit_time",
   nsURL snapshot bucket "/avg_bg_wait_time",
   nsURL snapshot bucket "/couch_total_disk_size",
   nsURL snapshot bucket "/mem_used"]
  ++ nodes.map (fun n => iostatURL snapshot n "/data_rps")
  ++ nodes.map (fun n => iostatURL snapshot n "/data_wps")
  ++ nodes.map (fun n => iostatURL snapshot n "/data_rbps")
  ++ nodes.map (fun n => iostatURL snapshot n "/data_wbps")
  ++ nodes.map (fun n => atopURL snapshot n "/memcached_rss")
  ++ nodes.map (fun n => atopURL snapshot n "/memcached_cpu")

/-- The set of URLs the record assembler downloads (source lines 196-241):
the two `spring_latency` URLs only when `hasLatency`, plus every
non-latency metric URL.  Used to quantify over "any downloaded URL" in the
abort-on-transport-error claim. -/
def recordFetchURLs (snapshot bucket : String) (nodes : List String)
    (hasLatency : Bool) : List String :=
  (if hasLatency then
    [springURL snapshot bucket "/latency_set", springURL snapshot bucket "/latency_get"]
   else [])
  ++ nonLatencyURLs snapshot bucket nodes

/-- A latency dict value (source lines 201-204):
`'{:.2f}'.format(getAverage(url)) if hasLatency else 'N/A'` — the fetch
happens only when `hasLatency` is true. -/
def latVal (env : Env) (hasLatency : Bool) (url : String) : Except PyError String :=
  if hasLatency then
    match getAverage env url with
    | .error e => .error e
    | .ok v => .ok (formatF2 v)
  else .ok "N/A"

/-- The dict literal of source lines 196-241, with its URL catalog
(source lines 154-190), evaluated in the literal's textual order. -/
def buildRecord (env : Env) (project number label snapshot bucket : String)
    (nodes : List String) (hasLatency : Bool) : Except PyError Record :=
  let data_rps := nodes.map (fun node => iostatURL snapshot node "/data_rps")
  let data_wps := nodes.map (fun node => iostatURL snapshot node "/data_wps")
  let data_rbps := nodes.map (fun node => iostatURL snapshot node "/data_rbps")
  let data_wbps := nodes.map (fun node => iostatURL snapshot node "/data_wbps")
  let memcached_rss := nodes.map (fun node => atopURL snapshot node "/memcached_rss")
  let memcached_cpu := nodes.map (fun node => atopURL snapshot node "/memcached_cpu")
  (getAverage env (opsURL snapshot)).bind fun ops_v =>
  (latVal env hasLatency (springURL snapshot bucket "/latency_set")).bind fun latency_set_v =>
  (latVal env hasLatency (springURL snapshot bucket "/latency_get")).bind fun latency_get_v =>
  (getAverage env (nsURL snapshot bucket "/avg_disk_update_time")).bind fun adu_v =>
  (getAverage env (nsURL snapshot bucket "/avg_disk_commit_time")).bind fun adc_v =>
  (getAverage env (nsURL snapshot bucket "/avg_bg_wait_time")).bind fun abw_v =>
  (getAverageFromList env data_rps true).bind fun rps_v =>
  (getAverageFromList env data_wps true).bind fun wps_v =>
  (getAverageFromList env data_rbps true).bind fun rbps_v =>
  (getAverageFromList env data_wbps true).bind fun wbps_v =>
  (getAverage env (nsURL snapshot bucket "/couch_total_disk_size")).bind fun ctds_v =>
  (getMax env (nsURL snapshot bucket "/couch_total_disk_size")).bind fun ctdsmax_v =>
  (getAverage env (nsURL snapshot bucket "/mem_used")).bind fun mu_v =>
  (getAverageFromList env memcached_rss false).bind fun rss_v =>
  (getAverageFromList env memcached_cpu true).bind fun cpu_v =>
  .ok [("job", project ++ ":" ++ number),
       ("label", label),
       ("snapshot", snapshot),
       ("ops", formatF2 ops_v),
       ("latency_set", latency_set_v),
       ("latency_get", latency_get_v),
       ("avg_disk_update_time (us)", formatF2 adu_v),
       ("avg_disk_commit_time (s)", formatF2 adc_v),
       ("avg_bg_wait_time (us)", formatF2 abw_v),
       ("data_rps", formatF2 rps_v),
       ("data_wps", formatF2 wps_v),
       ("data_rbps (MB/s)", formatF2 (rbps_v * byteToMBConversionFactor)),
       ("data_wbps (MB/s)", formatF2 (wbps_v * byteToMBConversionFactor)),
       ("couch_total_disk_size (MB)", formatF2 (ctds_v * byteToMBConversionFactor)),
       ("max couch_total_disk_size (MB)", formatF2 (ctdsmax_v * byteToMBConversionFactor)),
       ("mem_used (MB)", formatF2 (mu_v * byteToMBConversionFactor)),
       ("memcached_rss (MB, all nodes)", formatF2 (rss_v * byteToMBConversionFactor)),
       ("memcached_cpu", formatF2 cpu_v)]

/-- The Jenkins console-log URL (source lines 119-120). -/
def consoleURL (project number : String) : String :=
  "http://perf.jenkins.couchbase.com/job/" ++ project ++ "/" ++ number ++ "/consoleText"

/-- One iteration of the main loop (source lines 106-250) up to and
including the JSON write.  Returns `none` when the job is skipped for a
missing `snapshot=` marker; otherwise the JSON file path and the record. -/
def runJob (env : Env) (output_dir job : String) :
    Except PyError (Option (String × Record)) :=
  let array := pySplitColon job
  if array.length < 2 then .error .systemExit
  else
    let project := array.getD 0 ""
    let number := array.getD 1 ""
    let label := if array.length = 3 then array.getD 2 "" else ""
    match downloadData env (consoleURL project number) with
    | .error e => .error e
    | .ok p =>
      match asText p with
      | .error e => .error e
      | .ok consoleText =>
        if (findSub snapMarker consoleText.data).isNone then .ok none
        else
          match scrapeSnapshot consoleText.data with
          | .error e => .error e
          | .ok snapshotChars =>
            match scrapeNodes consoleText.data with
            | .error e => .error e
            | .ok nodesRaw =>
              match scrapeBucket consoleText.data with
              | .error e => .error e
              | .ok bucketChars =>
                let snapshot := String.mk snapshotChars
                let bucket := String.mk bucketChars
                let nodes := nodesRaw.dedup.map String.mk
                let hasLatency := hasLatencyOf consoleText
                match buildRecord env project number label snapshot bucket nodes hasLatency with
                | .error e => .error e
                | .ok d =>
                  let json_file := output_dir ++ "/" ++ project ++ "-" ++ number ++ ".json"
                  .ok (some (json_file, d))

/-- Observable outcome of one run: JSON files written (path and record, in
order), whether `data.csv` was opened (thus created) and at what path, its
header and rows if they were written, and the uncaught exception if the
run died. -/
structure RunResult where
  jsonFiles : List (String × Record)
  csvFile : Option String
  csvContent : Option (List String × List (List String))
  err : Option PyError
deriving DecidableEq

/-- The CSV epilogue (source lines 253-259): open `data.csv` (this creates
the file), then build a `DictWriter` over `data.keys()` — a `NameError`
when no job ever bound `data` — and write the header plus one row per
record, each row listing the record's values in header order. -/
def csvStep (output_dir : String) (files : List (String × Record))
    (last : Option Record) : RunResult :=
  let csv_file := output_dir ++ "/" ++ "data.csv"
  match last with
  | none => ⟨files, some csv_file, none, some .nameError⟩
  | some d =>
    let header := d.map Prod.fst
    let rows := (files.map Prod.snd).map (fun r => header.map (fun k => (r.lookup k).getD ""))
    ⟨files, some csv_file, some (header, rows), none⟩

/-- The main loop (source lines 106-259): process jobs in order,
accumulating written JSON files and the last bound `data`; an uncaught
exception aborts the run with only the files written so far; after a
complete loop the CSV epilogue runs. -/
def runJobs (env : Env) (output_dir : String) :
    List String → List (String × Record) → Option Record → RunResult
  | [], files, last => csvStep output_dir files last
  | job :: rest, files, last =>
    match runJob env output_dir job with
    | .error e => ⟨files, none, none, some e⟩
    | .ok none => runJobs env output_dir rest files last
    | .ok (some (path, d)) =>
      runJobs env output_dir rest (files ++ [(path, d)]) (some d)

/-- The whole script after argument parsing. -/
def runScript (env : Env) (output_dir : String) (job_list : List String) : RunResult :=
  runJobs env output_dir job_list [] none

/-! ## Concrete fixtures used by witnesses and counterexamples -/

/-- A network where every metric series is `[[0,-5]]`. -/
def envSeriesNeg : Env := ⟨fun _ => .ok (.series [(0, -5)])⟩

/-- A network where every metric series is `[[0,2],[1,4],[2,6]]`. -/
def envSeries246 : Env := ⟨fun _ => .ok (.series [(0, 2), (1, 4), (2, 6)])⟩

/-- A network where `u1` serves `[[0,2],[1,4],[2,6]]` and everything else
serves the empty series. -/
def envC4 : Env :=
  ⟨fun u => if u = "u1" then .ok (.series [(0, 2), (1, 4), (2, 6)]) else .ok (.series [])⟩

/-- A network where `u1` serves `[[0,10]]` and everything else `[[0,20]]`. -/
def envC5 : Env :=
  ⟨fun u => if u = "u1" then .ok (.series [(0, 10)]) else .ok (.series [(0, 20)])⟩

/-- A network where every download fails with the same transport error. -/
def envErr : Env := ⟨fun _ => .error "timeout"⟩

/-- A network whose every response is a console log with no `snapshot=`. -/
def envNoMarker : Env := ⟨fun _ => .ok (.text "build aborted, nothing here")⟩

/-- A network whose every response is a console log with a snapshot marker
but no bucket line. -/
def envSnapOnly : Env := ⟨fun _ => .ok (.text "snapshot=s17\nno bucket line\n")⟩

/-- The console log used by the two-job end-to-end fixture. -/
def c7log : String :=
  "snapshot=s\nAdding new bucket: b\nGetting memcached port from 1.2.3.4\n"

/-- Network for the two-job end-to-end fixture: both console logs resolve,
every metric series is `[[0,2]]`. -/
def envC7 : Env :=
  ⟨fun u =>
    if u = consoleURL "p" "1" then .ok (.text c7log)
    else if u = consoleURL "p" "2" then .ok (.text c7log)
    else .ok (.series [(0, 2)])⟩

/-- The two-job run of the end-to-end fixture. -/
def c7run : RunResult := runScript envC7 "D" ["p:1", "p:2:my label"]

/-- Network for the latency-gating witness: the two `spring_latency` URLs
for snapshot `s`, bucket `b` fail; everything else serves `[[0,2]]`. -/
def envC8 : Env :=
  ⟨fun u =>
    if u = springURL "s" "b" "/latency_get" then .error "down"
    else if u = springURL "s" "b" "/latency_set" then .error "down"
    else .ok (.series [(0, 2)])⟩

/-- The series map used with `envC8`. -/
def c8g : String → List (Rat × Rat) := fun _ => [(0, 2)]

/-- Network for the metric-failure witness: the console log of job `p:1`
resolves (snapshot `s`, bucket `b`, node `1234`), the `mem_used` metric URL
fails with a transport error, and every other URL serves `[[0,2]]`. -/
def envC2m : Env :=
  ⟨fun u =>
    if u = consoleURL "p" "1" then .ok (.text c7log)
    else if u = nsURL "s" "b" "/mem_used" then .error "refused"
    else .ok (.series [(0, 2)])⟩

/-- `"Adding new bucket: "`, the bucket line prefix of the structured log. -/
def bucketLinePre : List Char := "Adding new bucket: ".data

/-- A console log of the shape the spec describes: a `snapshot=X` line, an
`Adding new bucket: B` line, and three `Getting memcached port from <ip>`
lines. -/
def mkLog (X B ip1 ip2 ip3 : List Char) : List Char :=
  (snapMarker ++ X) ++ '\n' ::
  ((bucketLinePre ++ B) ++ '\n' ::
  ((memcMarker ++ ' ' :: ip1) ++ '\n' ::
  ((memcMarker ++ ' ' :: ip2) ++ '\n' ::
  ((memcMarker ++ ' ' :: ip3) ++ '\n' :: []))))

/-- `ip.replace(".", "")` applied after `strip()`: the node normalization. -/
def stripDots (ip : List Char) : List Char := ip.filter (fun c => c != '.')

/-! ## Lemmas about the text-search primitives -/

theorem isPre_nil_iff (n : List Char) : isPre n [] = true ↔ n = [] := by
  cases n <;> simp [isPre]

theorem isPre_of_eq_append (n t : List Char) : isPre n (n ++ t) = true := by
  induction n with
  | nil => simp [isPre]
  | cons a as ih => simp [isPre, ih]

theorem exists_of_isPre : ∀ {n s : List Char}, isPre n s = true → ∃ t, s = n ++ t
  | [], s, _ => ⟨s, rfl⟩
  | a :: as, [], h => by simp [isPre] at h
  | a :: as, b :: bs, h => by
    simp only [isPre, Bool.and_eq_true, decide_eq_true_eq] at h
    obtain ⟨t, ht⟩ := exists_of_isPre h.2
    exact ⟨t, by simp [h.1, ht]⟩

theorem isPre_length_le {n s : List Char} (h : isPre n s = true) : n.length ≤ s.length := by
  obtain ⟨t, rfl⟩ := exists_of_isPre h
  simp

theorem isPre_append_of_le : ∀ {n s : List Char} (r : List Char),
    n.length ≤ s.length → isPre n (s ++ r) = isPre n s
  | [], s, r, _ => by simp [isPre]
  | a :: as, [], r, h => by simp at h
  | a :: as, b :: bs, r, h => by
    simp only [List.length_cons, Nat.add_le_add_iff_right] at h
    simp [isPre, isPre_append_of_le r h]

theorem findSub_le : ∀ {n s : List Char} {i : Nat},
    findSub n s = some i → i + n.length ≤ s.length
  | n, [], i, h => by
    simp only [findSub] at h
    split at h
    · rename_i hp
      cases h
      simpa using isPre_length_le hp
    · simp at h
  | n, c :: t, i, h => by
    simp only [findSub] at h
    split at h
    · rename_i hp
      cases h
      simpa using isPre_length_le hp
    · rw [Option.map_eq_some'] at h
      obtain ⟨j, hj, hji⟩ := h
      have := findSub_le hj
      simp only [List.length_cons]
      omega

theorem findSub_isPre : ∀ {n s : List Char} {i : Nat},
    findSub n s = some i → isPre n (s.drop i) = true
  | n, [], i, h => by
    simp only [findSub] at h
    split at h
    · rename_i hp
      cases h
      simpa using hp
    · simp at h
  | n, c :: t, i, h => by
    simp only [findSub] at h
    split at h
    · rename_i hp
      cases h
      simpa using hp
    · rw [Option.map_eq_some'] at h
      obtain ⟨j, hj, hji⟩ := h
      subst hji
      simpa using findSub_isPre hj

theorem findSub_none_isPre : ∀ {n s : List Char}, findSub n s = none →
    ∀ i, isPre n (s.drop i) = false
  | n, [], h, i => by
    simp only [findSub] at h
    split at h
    · simp at h
    · rename_i hp
      simpa [List.drop_nil] using hp
  | n, c :: t, h, i => by
    simp only [findSub] at h
    split at h
    · simp at h
    · rename_i hp
      rw [Option.map_eq_none'] at h
      match i with
      | 0 => simpa using hp
      | i + 1 => simpa using findSub_none_isPre h i

theorem findSub_none_ne_nil {n s : List Char} (h : findSub n s = none) : n ≠ [] := by
  intro hn
  subst hn
  have := findSub_none_isPre h 0
  simp [isPre] at this

theorem findSub_nil_of_ne {n : List Char} (h : n ≠ []) : findSub n [] = none := by
  match n with
  | [] => exact absurd rfl h
  | a :: as => simp [findSub, isPre]

theorem findSub_append_some : ∀ {n s : List Char} {i : Nat} (r : List Char),
    findSub n s = some i → findSub n (s ++ r) = some i
  | n, [], i, r, h => by
    simp only [findSub] at h
    split at h
    · rename_i hp
      cases h
      obtain rfl := (isPre_nil_iff n).1 hp
      cases r <;> simp [findSub, isPre]
    · simp at h
  | n, c :: t, i, r, h => by
    simp only [findSub] at h
    split at h
    · rename_i hp
      cases h
      obtain ⟨u, hu⟩ := exists_of_isPre hp
      have hpre : isPre n ((c :: t) ++ r) = true := by
        rw [hu, List.append_assoc]
        exact isPre_of_eq_append n (u ++ r)
      have : (c :: t) ++ r = c :: (t ++ r) := rfl
      rw [this] at hpre
      simp [findSub, hpre]
    · rename_i hp
      rw [Option.map_eq_some'] at h
      obtain ⟨j, hj, hji⟩ := h
      have hlen : n.length ≤ (c :: t).length := by
        have := findSub_le hj
        simp only [List.length_cons]
        omega
      have hp' : isPre n ((c :: t) ++ r) = false := by
        rw [isPre_append_of_le r hlen]
        simpa using hp
      have ih := findSub_append_some r hj
      have hcons : (c :: t) ++ r = c :: (t ++ r) := rfl
      rw [hcons] at hp' ⊢
      simp [findSub, hp', ih, hji]

theorem notPre_line : ∀ {n a : List Char} (b : List Char),
    isPre n a = false → '\n' ∉ n → isPre n (a ++ '\n' :: b) = false
  | [], a, b, h, _ => by simp [isPre] at h
  | d :: m, [], b, h, hn => by
    have hd : d ≠ '\n' := by
      intro hc
      apply hn
      rw [hc]
      simp
    simp [isPre, hd]
  | d :: m, c :: t, b, h, hn => by
    by_cases hdc : d = c
    · subst hdc
      simp only [isPre, decide_True, Bool.true_and] at h
      have hn' : '\n' ∉ m := by
        intro hc
        exact hn (by simp [hc])
      simp [isPre, notPre_line b h hn']
    · simp [isPre, hdc]

theorem findSub_line : ∀ {n a : List Char} (b : List Char),
    findSub n a = none → '\n' ∉ n →
    findSub n (a ++ '\n' :: b) = (findSub n b).map (· + (a.length + 1))
  | n, [], b, h, hn => by
    have hne : n ≠ [] := findSub_none_ne_nil h
    have hp : isPre n ('\n' :: b) = false := by
      match n, hne with
      | d :: m, _ =>
        have hd : d ≠ '\n' := by
          intro hc
          apply hn
          rw [hc]
          simp
        simp [isPre, hd]
    simp only [List.nil_append, findSub, hp, if_false, List.length_nil]
    cases findSub n b <;> simp
  | n, c :: t, b, h, hn => by
    by_cases hp : isPre n (c :: t) = true
    · simp [findSub, hp] at h
    · have hp0 : isPre n (c :: t) = false := by simpa using hp
      have ht : findSub n t = none := by
        simp only [findSub, hp0, Bool.false_eq_true, if_false, Option.map_eq_none'] at h
        exact h
      have hline : isPre n ((c :: t) ++ '\n' :: b) = false := notPre_line _ hp0 hn
      have ih := findSub_line b ht hn
      have hcons : (c :: t) ++ '\n' :: b = c :: (t ++ '\n' :: b) := rfl
      rw [hcons] at hline
      show findSub n (c :: (t ++ '\n' :: b)) = _
      simp only [findSub, hline, Bool.false_eq_true, if_false, ih]
      cases findSub n b <;> simp <;> omega

theorem findSub_singleton_none : ∀ {c : Char} {s : List Char}, c ∉ s → findSub [c] s = none
  | c, [], _ => by simp [findSub, isPre]
  | c, x :: t, h => by
    have hcx : ¬ c = x := by
      intro hc
      exact h (by simp [hc])
    have ht : c ∉ t := by
      intro hc
      exact h (by simp [hc])
    simp [findSub, isPre, hcx, findSub_singleton_none ht]

theorem takeWhile_append_all {p : Char → Bool} : ∀ {a : List Char} (b : List Char),
    (∀ x ∈ a, p x = true) → (a ++ b).takeWhile p = a ++ b.takeWhile p
  | [], b, _ => rfl
  | x :: a, b, h => by
    have hx : p x = true := h x (by simp)
    simp only [List.cons_append, List.takeWhile_cons, hx, if_true]
    rw [takeWhile_append_all b (fun y hy => h y (by simp [hy]))]

theorem takeWhile_all {p : Char → Bool} {a : List Char}
    (h : ∀ x ∈ a, p x = true) : a.takeWhile p = a := by
  have := @takeWhile_append_all p a [] h
  simpa using this

theorem takeWhile_line {a : List Char} (b : List Char) (h : '\n' ∉ a) :
    (a ++ '\n' :: b).takeWhile (fun c => c != '\n') = a := by
  rw [takeWhile_append_all _ (fun x hx => by
    simp only [bne_iff_ne, ne_eq, decide_eq_true_eq]
    exact fun hc => h (hc ▸ hx))]
  simp

theorem drop_line (a : List Char) (c : Char) (b : List Char) :
    (a ++ c :: b).drop (a.length + 1) = b := by
  have h1 : a ++ c :: b = (a ++ [c]) ++ b := by simp
  have h2 : (a ++ [c]).length = a.length + 1 := by simp
  rw [h1, ← h2, List.drop_left]

theorem findSub_zero {n s : List Char} (h : isPre n s = true) : findSub n s = some 0 := by
  cases s <;> simp [findSub, h]

theorem bne_newline_of_mem {a : List Char} (h : '\n' ∉ a) :
    ∀ x ∈ a, (x != '\n') = true := by
  intro x hx
  simp only [bne_iff_ne, ne_eq]
  intro hc
  exact h (hc ▸ hx)

theorem drop_drop_le (l : List Char) (i k : Nat) (hk : 1 ≤ k) :
    ((l.drop i).drop k).length ≤ l.length - 1 := by
  simp only [List.length_drop]
  omega

theorem findAllAux_congr {pat : List Char} (hne : pat ≠ []) :
    ∀ (f : Nat) {g : Nat} {hay : List Char}, hay.length ≤ f → hay.length ≤ g →
    findAllAux pat f hay = findAllAux pat g hay
  | 0, g, hay, hf, hg => by
    have h0 : hay = [] := List.length_eq_zero.1 (Nat.le_zero.1 hf)
    subst h0
    cases g with
    | zero => rfl
    | succ g => simp [findAllAux, findSub_nil_of_ne hne]
  | f + 1, g, hay, hf, hg => by
    cases hay with
    | nil =>
      cases g with
      | zero => simp [findAllAux, findSub_nil_of_ne hne]
      | succ g => simp [findAllAux, findSub_nil_of_ne hne]
    | cons c t =>
      have hg1 : 1 ≤ g := le_trans (by simp) hg
      obtain ⟨g', rfl⟩ : ∃ g', g = g' + 1 := ⟨g - 1, by omega⟩
      cases hfs : findSub pat (c :: t) with
      | none => simp [findAllAux, hfs]
      | some i =>
        simp only [findAllAux, hfs]
        congr 1
        have hb := drop_drop_le (c :: t) i
          (max 1 (((c :: t).drop i).takeWhile (fun x => x != '\n')).length) (le_max_left _ _)
        simp only [List.length_cons, Nat.add_sub_cancel] at hb
        simp only [List.length_cons] at hf hg
        exact findAllAux_congr hne f (by omega) (by omega)

theorem findAll_none {pat hay : List Char} (h : findSub pat hay = none) :
    findAllToEOL pat hay = [] := by
  cases hay with
  | nil => rfl
  | cons c t => simp [findAllToEOL, findAllAux, h]

theorem findAll_some {pat hay : List Char} {i : Nat} (hne : pat ≠ [])
    (h : findSub pat hay = some i) :
    findAllToEOL pat hay =
      (hay.drop i).takeWhile (fun c => c != '\n') ::
      findAllToEOL pat
        ((hay.drop i).drop (max 1 ((hay.drop i).takeWhile (fun c => c != '\n')).length)) := by
  cases hay with
  | nil =>
    rw [findSub_nil_of_ne hne] at h
    simp at h
  | cons c t =>
    show findAllAux pat (t.length + 1) (c :: t) = _
    simp only [findAllAux, h]
    congr 1
    have hb := drop_drop_le (c :: t) i
      (max 1 (((c :: t).drop i).takeWhile (fun x => x != '\n')).length) (le_max_left _ _)
    simp only [List.length_cons, Nat.add_sub_cancel] at hb
    exact findAllAux_congr hne t.length (by omega) (le_refl _)

theorem findAll_consSkip {pat : List Char} {c : Char} {t : List Char}
    (h : isPre pat (c :: t) = false) :
    findAllToEOL pat (c :: t) = findAllToEOL pat t := by
  have hne : pat ≠ [] := by
    intro hp
    rw [hp] at h
    simp [isPre] at h
  cases hft : findSub pat t with
  | none =>
    have hcs : findSub pat (c :: t) = none := by simp [findSub, h, hft]
    rw [findAll_none hcs, findAll_none hft]
  | some j =>
    have hcs : findSub pat (c :: t) = some (j + 1) := by simp [findSub, h, hft]
    rw [findAll_some hne hcs, findAll_some hne hft]
    simp [List.drop_succ_cons]

theorem findAll_lineSkip {pat : List Char} : ∀ {a : List Char} (b : List Char),
    findSub pat a = none → '\n' ∉ pat →
    findAllToEOL pat (a ++ '\n' :: b) = findAllToEOL pat b
  | [], b, h, hn => by
    have hne : pat ≠ [] := findSub_none_ne_nil h
    have hp : isPre pat ('\n' :: b) = false := by
      match pat, hne with
      | d :: m, _ =>
        have hd : d ≠ '\n' := by
          intro hc
          apply hn
          rw [hc]
          simp
        simp [isPre, hd]
    simpa using findAll_consSkip hp
  | c :: t, b, h, hn => by
    have hp0 : isPre pat (c :: t) = false := by
      have := findSub_none_isPre h 0
      simpa using this
    have ht : findSub pat t = none := by
      simp only [findSub, hp0, Bool.false_eq_true, if_false, Option.map_eq_none'] at h
      exact h
    have hline : isPre pat (c :: (t ++ '\n' :: b)) = false := by
      have := @notPre_line pat (c :: t) b hp0 hn
      simpa using this
    calc findAllToEOL pat ((c :: t) ++ '\n' :: b)
        = findAllToEOL pat (c :: (t ++ '\n' :: b)) := by simp
      _ = findAllToEOL pat (t ++ '\n' :: b) := findAll_consSkip hline
      _ = findAllToEOL pat b := findAll_lineSkip b ht hn

theorem findAll_lineMatch {pat a : List Char} (b : List Char)
    (hp : isPre pat a = true) (hn : '\n' ∉ a) (hne : pat ≠ []) :
    findAllToEOL pat (a ++ '\n' :: b) = a :: findAllToEOL pat b := by
  have hpa : isPre pat (a ++ '\n' :: b) = true := by
    obtain ⟨u, rfl⟩ := exists_of_isPre hp
    rw [List.append_assoc]
    exact isPre_of_eq_append _ _
  have hfs : findSub pat (a ++ '\n' :: b) = some 0 := findSub_zero hpa
  have halen : 1 ≤ a.length := le_trans (by
    match pat, hne with
    | d :: m, _ => simp) (isPre_length_le hp)
  have htake : (a ++ '\n' :: b).takeWhile (fun c => c != '\n') = a := by
    rw [takeWhile_append_all _ (bne_newline_of_mem hn)]
    simp
  have hnp : '\n' ∉ pat := by
    obtain ⟨u, hu⟩ := exists_of_isPre hp
    intro hc
    exact hn (hu ▸ List.mem_append_left u hc)
  have hskip : isPre pat ('\n' :: b) = false := by
    match pat, hne with
    | d :: m, _ =>
      have hd : d ≠ '\n' := by
        intro hc
        apply hnp
        rw [hc]
        simp
      simp [isPre, hd]
  rw [findAll_some hne hfs]
  simp only [List.drop_zero, htake]
  congr 1
  have hmax : max 1 a.length = a.length := by omega
  rw [hmax, List.drop_left]
  exact findAll_consSkip hskip

theorem findAllAux_members {pat : List Char} (hn : '\n' ∉ pat) :
    ∀ (f : Nat) (hay : List Char), ∀ m ∈ findAllAux pat f hay, isPre pat m = true
  | 0, hay => by simp [findAllAux]
  | f + 1, hay => by
    cases hfs : findSub pat hay with
    | none => simp [findAllAux, hfs]
    | some i =>
      simp only [findAllAux, hfs, List.mem_cons]
      rintro m (rfl | hm)
      · have hp := findSub_isPre hfs
        obtain ⟨u, hu⟩ := exists_of_isPre hp
        rw [hu, takeWhile_append_all _ (bne_newline_of_mem hn)]
        exact isPre_of_eq_append _ _
      · exact findAllAux_members hn f _ m hm

theorem findAll_members {pat : List Char} (hn : '\n' ∉ pat) (hay : List Char) :
    ∀ m ∈ findAllToEOL pat hay, isPre pat m = true :=
  findAllAux_members hn hay.length hay

/-! ## Success of the scraping steps on logs that contain the markers -/

theorem pyAfterFirst_of_concrete {pre n : List Char} {j : Nat}
    (h : findSub n (pre ++ n) = some j) (r : List Char) :
    pyAfterFirst n ((pre ++ n) ++ r) =
      some (match findSub n (((pre ++ n) ++ r).drop (j + n.length)) with
            | none => ((pre ++ n) ++ r).drop (j + n.length)
            | some k => (((pre ++ n) ++ r).drop (j + n.length)).take k) := by
  have hfs := findSub_append_some r h
  simp only [pyAfterFirst, hfs]

/-- If the log contains `snapshot=`, the snapshot extraction of source line
126 succeeds (the match starts with `snapshot=`, which contains `=`). -/
theorem scrapeSnapshot_ok {t : List Char} (h : (findSub snapMarker t).isSome = true) :
    ∃ s, scrapeSnapshot t = .ok s := by
  obtain ⟨i, hi⟩ := Option.isSome_iff_exists.1 h
  have hpre := findSub_isPre hi
  obtain ⟨u, hu⟩ := exists_of_isPre hpre
  have hnl : '\n' ∉ snapMarker := by decide
  have htake : (t.drop i).takeWhile (fun c => c != '\n') =
      snapMarker ++ u.takeWhile (fun c => c != '\n') := by
    rw [hu, takeWhile_append_all _ (bne_newline_of_mem hnl)]
  have heq : findSub ['='] snapMarker = some 8 := by decide
  have hfs := findSub_append_some (u.takeWhile (fun c => c != '\n')) heq
  simp only [scrapeSnapshot, searchToEOL, hi, htake, pyAfterFirst, hfs]
  exact ⟨_, rfl⟩

/-- A `re.findall` match begins with the marker, which contains `from`, so
`match.split("from")[1]` cannot raise. -/
theorem nodeOfMatch_ok {m : List Char} (h : isPre memcMarker m = true) :
    ∃ y, nodeOfMatch m = .ok y := by
  obtain ⟨u, rfl⟩ := exists_of_isPre h
  have hfrom : findSub fromSep memcMarker = some 23 := by decide
  have hfs := findSub_append_some u hfrom
  simp only [nodeOfMatch, pyAfterFirst, hfs]
  exact ⟨_, rfl⟩

theorem mapM_ok_of_forall {α β : Type} {f : α → Except PyError β} :
    ∀ {l : List α}, (∀ x ∈ l, ∃ y, f x = Except.ok y) →
    ∃ ys, l.mapM f = Except.ok ys
  | [], _ => ⟨[], rfl⟩
  | x :: l, h => by
    obtain ⟨y, hy⟩ := h x (List.mem_cons_self x l)
    obtain ⟨ys, hys⟩ := mapM_ok_of_forall (fun z hz => h z (List.mem_cons_of_mem x hz))
    refine ⟨y :: ys, ?_⟩
    rw [List.mapM_cons, hy, hys]
    rfl

/-- The node extraction of source lines 136-140 never fails. -/
theorem scrapeNodes_ok (t : List Char) : ∃ ns, scrapeNodes t = .ok ns := by
  have hnl : '\n' ∉ memcMarker := by decide
  exact mapM_ok_of_forall (fun m hm => nodeOfMatch_ok (findAll_members hnl t m hm))

/-- When the log has no `Adding new bucket` line, source line 148 calls
`.group(0)` on `None`: an `AttributeError`. -/
theorem scrapeBucket_err {t : List Char} (h : findSub bucketMarker t = none) :
    scrapeBucket t = .error .attributeError := by
  simp [scrapeBucket, searchToEOL, h]

/-! ## Lemmas about the metric reducers -/

theorem foldl_add_snd (xs : List (Rat × Rat)) : ∀ (a : Rat),
    xs.foldl (fun acc q => acc + q.2) a = a + (xs.map Prod.snd).sum := by
  induction xs with
  | nil => intro a; simp
  | cons x t ih => intro a; simp [ih, add_assoc]

theorem getAverage_ok {env : Env} {url : String} {xs : List (Rat × Rat)}
    (h : env.net url = .ok (.series xs)) (hne : xs ≠ []) :
    getAverage env url = .ok (meanOf xs) := by
  simp only [getAverage, downloadData, h, asSeries]
  rw [if_neg (by simpa using hne), foldl_add_snd]
  simp [meanOf]

theorem getAverage_empty {env : Env} {url : String}
    (h : env.net url = .ok (.series [])) :
    getAverage env url = .error .zeroDivisionError := by
  simp [getAverage, downloadData, h, asSeries]

theorem foldlM_avg {env : Env} {g : String → List (Rat × Rat)} :
    ∀ (urls : List String) (a : Rat),
    (∀ u ∈ urls, env.net u = .ok (.series (g u)) ∧ g u ≠ []) →
    (urls.foldlM (fun a url =>
        match getAverage env url with
        | .error e => Except.error e
        | .ok v => Except.ok (a + v)) a)
      = Except.ok (a + (urls.map (fun u => meanOf (g u))).sum)
  | [], a, _ => by
    show (pure a : Except PyError Rat) = _
    simp [pure, Except.pure]
  | u :: urls, a, h => by
    have hu := h u (List.mem_cons_self _ _)
    have hg := getAverage_ok hu.1 hu.2
    have ih := foldlM_avg urls (a + meanOf (g u))
      (fun z hz => h z (List.mem_cons_of_mem u hz))
    rw [List.foldlM_cons]
    simp only [hg]
    rw [show ((Except.ok (a + meanOf (g u)) : Except PyError Rat) >>= fun b =>
        urls.foldlM (fun a url =>
          match getAverage env url with
          | .error e => Except.error e
          | .ok v => Except.ok (a + v)) b)
      = urls.foldlM (fun a url =>
          match getAverage env url with
          | .error e => Except.error e
          | .ok v => Except.ok (a + v)) (a + meanOf (g u)) from rfl]
    rw [ih]
    simp [add_assoc]

theorem getAvgList_ok {env : Env} {g : String → List (Rat × Rat)}
    {urls : List String} {per : Bool}
    (h : ∀ u ∈ urls, env.net u = .ok (.series (g u)) ∧ g u ≠ [])
    (hne : per = true → urls ≠ []) :
    getAverageFromList env urls per =
      .ok (if per then (urls.map (fun u => meanOf (g u))).sum / (urls.length : Rat)
           else (urls.map (fun u => meanOf (g u))).sum) := by
  unfold getAverageFromList
  rw [foldlM_avg urls 0 h]
  cases per with
  | false => simp
  | true =>
    have : urls.length ≠ 0 := by simpa using hne rfl
    simp [this]

theorem getMax_foldl_spec : ∀ (xs : List (Rat × Rat)) (a : Rat),
    a ≤ xs.foldl (fun m q => if q.2 > m then q.2 else m) a ∧
    (∀ p ∈ xs, p.2 ≤ xs.foldl (fun m q => if q.2 > m then q.2 else m) a) ∧
    (xs.foldl (fun m q => if q.2 > m then q.2 else m) a = a ∨
     ∃ p ∈ xs, p.2 = xs.foldl (fun m q => if q.2 > m then q.2 else m) a)
  | [], a => by simp
  | x :: t, a => by
    have step : (x :: t).foldl (fun m q => if q.2 > m then q.2 else m) a
        = t.foldl (fun m q => if q.2 > m then q.2 else m) (if x.2 > a then x.2 else a) := rfl
    obtain ⟨h1, h2, h3⟩ := getMax_foldl_spec t (if x.2 > a then x.2 else a)
    refine ⟨?_, ?_, ?_⟩
    · rw [step]
      refine le_trans ?_ h1
      by_cases hx : x.2 > a
      · rw [if_pos hx]
        exact le_of_lt hx
      · rw [if_neg hx]
    · rw [step]
      intro p hp
      rcases List.mem_cons.1 hp with rfl | hpt
      · refine le_trans ?_ h1
        by_cases hx : p.2 > a
        · rw [if_pos hx]
        · rw [if_neg hx]
          exact le_of_not_lt hx
      · exact h2 p hpt
    · rw [step]
      rcases h3 with heq | ⟨p, hp, hpe⟩
      · by_cases hx : x.2 > a
        · right
          exact ⟨x, List.mem_cons_self _ _, by rw [heq, if_pos hx]⟩
        · left
          rw [heq, if_neg hx]
      · right
        exact ⟨p, List.mem_cons_of_mem x hp, hpe⟩

theorem getMax_ok {env : Env} {url : String} {xs : List (Rat × Rat)}
    (h : env.net url = .ok (.series xs)) :
    getMax env url = .ok (xs.foldl (fun m q => if q.2 > m then q.2 else m) 0) := by
  simp [getMax, downloadData, h, asSeries]

/-! ## Lemmas about one iteration of the main loop -/

theorem runJob_skip {env : Env} {output_dir job : String} {t : String}
    (hlen : 2 ≤ (pySplitColon job).length)
    (hnet : env.net (consoleURL ((pySplitColon job).getD 0 "") ((pySplitColon job).getD 1 ""))
      = .ok (.text t))
    (hsnap : findSub snapMarker t.data = none) :
    runJob env output_dir job = .ok none := by
  unfold runJob
  rw [if_neg (by omega)]
  simp only [downloadData, hnet, asText]
  simp [hsnap]

theorem runJob_console_err {env : Env} {output_dir job : String} {e : String}
    (hlen : 2 ≤ (pySplitColon job).length)
    (hnet : env.net (consoleURL ((pySplitColon job).getD 0 "") ((pySplitColon job).getD 1 ""))
      = .error e) :
    runJob env output_dir job = .error (.exception (urlopenErrMsg ++ e)) := by
  simp only [List.getD_eq_getElem?_getD] at hnet
  unfold runJob
  rw [if_neg (by omega)]
  simp [downloadData, hnet]

theorem runJob_bucket_err {env : Env} {output_dir job : String} {t : String}
    (hlen : 2 ≤ (pySplitColon job).length)
    (hnet : env.net (consoleURL ((pySplitColon job).getD 0 "") ((pySplitColon job).getD 1 ""))
      = .ok (.text t))
    (hsnap : (findSub snapMarker t.data).isSome = true)
    (hbucket : findSub bucketMarker t.data = none) :
    runJob env output_dir job = .error .attributeError := by
  simp only [List.getD_eq_getElem?_getD] at hnet
  unfold runJob
  rw [if_neg (by omega)]
  obtain ⟨s, hs⟩ := scrapeSnapshot_ok hsnap
  obtain ⟨ns, hns⟩ := scrapeNodes_ok t.data
  have hne2 : findSub snapMarker t.data ≠ none := Option.isSome_iff_ne_none.1 hsnap
  simp [downloadData, hnet, asText, hs, hns, scrapeBucket_err hbucket, hne2]

/-! ## Propagation of download failures through the reducers and the
record build -/

theorem getAverage_net_err {env : Env} {url e : String}
    (h : env.net url = .error e) :
    getAverage env url = .error (.exception (urlopenErrMsg ++ e)) := by
  simp [getAverage, downloadData, h]

theorem getMax_net_err {env : Env} {url e : String}
    (h : env.net url = .error e) :
    getMax env url = .error (.exception (urlopenErrMsg ++ e)) := by
  simp [getMax, downloadData, h]

theorem foldlM_first_err {env : Env} {g : String → List (Rat × Rat)} :
    ∀ {urls : List String} (a : Rat),
    (∀ u ∈ urls, (env.net u = .ok (.series (g u)) ∧ g u ≠ []) ∨ ∃ er, env.net u = .error er) →
    (∃ u ∈ urls, ∃ er, env.net u = .error er) →
    ∃ er, (urls.foldlM (fun a url =>
        match getAverage env url with
        | .error e => Except.error e
        | .ok v => Except.ok (a + v)) a)
        = Except.error (PyError.exception (urlopenErrMsg ++ er)) ∧
      ∃ u ∈ urls, env.net u = .error er
  | [], a, _, hfail => by simp at hfail
  | v :: rest, a, hmix, hfail => by
    rcases hmix v (List.mem_cons_self _ _) with hgood | ⟨er, herr⟩
    · have hrest : ∃ u ∈ rest, ∃ er, env.net u = .error er := by
        obtain ⟨u, hu, er, herru⟩ := hfail
        rcases List.mem_cons.1 hu with rfl | hu2
        · rw [hgood.1] at herru
          exact absurd herru (by simp)
        · exact ⟨u, hu2, er, herru⟩
      obtain ⟨er, heq, u, hu, herru⟩ := foldlM_first_err (a + meanOf (g v))
        (fun z hz => hmix z (List.mem_cons_of_mem v hz)) hrest
      refine ⟨er, ?_, u, List.mem_cons_of_mem v hu, herru⟩
      rw [List.foldlM_cons, getAverage_ok hgood.1 hgood.2]
      exact heq
    · refine ⟨er, ?_, v, List.mem_cons_self _ _, herr⟩
      rw [List.foldlM_cons, getAverage_net_err herr]
      rfl

theorem getAvgList_first_err {env : Env} {g : String → List (Rat × Rat)}
    {urls : List String} {per : Bool}
    (hmix : ∀ u ∈ urls,
      (env.net u = .ok (.series (g u)) ∧ g u ≠ []) ∨ ∃ er, env.net u = .error er)
    (hfail : ∃ u ∈ urls, ∃ er, env.net u = .error er) :
    ∃ er, getAverageFromList env urls per = .error (.exception (urlopenErrMsg ++ er)) ∧
      ∃ u ∈ urls, env.net u = .error er := by
  obtain ⟨er, heq, w⟩ := foldlM_first_err 0 hmix hfail
  refine ⟨er, ?_, w⟩
  unfold getAverageFromList
  rw [heq]

theorem getAvgList_mix {env : Env} {g : String → List (Rat × Rat)}
    {urls : List String} {per : Bool}
    (hmix : ∀ u ∈ urls,
      (env.net u = .ok (.series (g u)) ∧ g u ≠ []) ∨ ∃ er, env.net u = .error er)
    (hper : per = true → urls ≠ []) :
    ((∀ u ∈ urls, env.net u = .ok (.series (g u)) ∧ g u ≠ []) ∧
      getAverageFromList env urls per =
        .ok (if per then (urls.map (fun u => meanOf (g u))).sum / (urls.length : Rat)
             else (urls.map (fun u => meanOf (g u))).sum)) ∨
    (∃ er, getAverageFromList env urls per = .error (.exception (urlopenErrMsg ++ er)) ∧
      ∃ u ∈ urls, env.net u = .error er) := by
  by_cases hall : ∀ u ∈ urls, env.net u = .ok (.series (g u)) ∧ g u ≠ []
  · exact Or.inl ⟨hall, getAvgList_ok hall hper⟩
  · right
    push_neg at hall
    obtain ⟨u, hu, hbad⟩ := hall
    rcases hmix u hu with hgood | ⟨er, herr⟩
    · exact absurd (hbad hgood.1) hgood.2
    · exact getAvgList_first_err hmix ⟨u, hu, er, herr⟩

/-- The record build either completes with no fetched URL failing, or
stops at the first failing fetch with the uncaught `downloadData`
exception of some URL that failed. -/
theorem buildRecord_mix (env : Env) (project number label snapshot bucket : String)
    (nodes : List String) (hasLatency : Bool) (g : String → List (Rat × Rat))
    (hnodes : nodes ≠ [])
    (hmix : ∀ u ∈ recordFetchURLs snapshot bucket nodes hasLatency,
      (env.net u = .ok (.series (g u)) ∧ g u ≠ []) ∨ ∃ er, env.net u = .error er) :
    ((∀ u ∈ recordFetchURLs snapshot bucket nodes hasLatency, ∀ er, env.net u ≠ .error er) ∧
      ∃ r, buildRecord env project number label snapshot bucket nodes hasLatency = .ok r) ∨
    (∃ er, buildRecord env project number label snapshot bucket nodes hasLatency
        = .error (.exception (urlopenErrMsg ++ er)) ∧
      ∃ u ∈ recordFetchURLs snapshot bucket nodes hasLatency, env.net u = .error er) := by
  have hmemN : ∀ u, u ∈ nonLatencyURLs snapshot bucket nodes →
      u ∈ recordFetchURLs snapshot bucket nodes hasLatency := by
    intro u hu
    unfold recordFetchURLs
    exact List.mem_append_right _ hu
  have hmix2 : ∀ u ∈ nonLatencyURLs snapshot bucket nodes,
      (env.net u = .ok (.series (g u)) ∧ g u ≠ []) ∨ ∃ er, env.net u = .error er :=
    fun u hu => hmix u (hmemN u hu)
  have hmemLat : ∀ url, hasLatency = true →
      url ∈ [springURL snapshot bucket "/latency_set",
             springURL snapshot bucket "/latency_get"] →
      url ∈ recordFetchURLs snapshot bucket nodes hasLatency := by
    intro url hl hm
    unfold recordFetchURLs
    rw [hl]
    exact List.mem_append_left _ (by simpa using hm)
  have hlatv : ∀ url ∈ [springURL snapshot bucket "/latency_set",
      springURL snapshot bucket "/latency_get"],
      ((∃ s, latVal env hasLatency url = .ok s) ∧
        (∀ er, hasLatency = true → env.net url ≠ .error er)) ∨
      (∃ er, latVal env hasLatency url = .error (.exception (urlopenErrMsg ++ er)) ∧
        hasLatency = true ∧ env.net url = .error er) := by
    intro url hm
    cases hL : hasLatency with
    | false =>
      left
      exact ⟨⟨"N/A", by simp [latVal]⟩, by simp⟩
    | true =>
      rcases hmix url (hmemLat url hL hm) with hgood | ⟨er, herr⟩
      · left
        refine ⟨⟨formatF2 (meanOf (g url)), by simp [latVal, getAverage_ok hgood.1 hgood.2]⟩, ?_⟩
        intro er _ hco
        rw [hgood.1] at hco
        exact Except.noConfusion hco
      · right
        exact ⟨er, by simp [latVal, getAverage_net_err herr], rfl, herr⟩
  rcases hmix2 (opsURL snapshot) (by simp [nonLatencyURLs]) with h1 | ⟨er, herr⟩
  swap
  · right
    exact ⟨er, by simp only [buildRecord, getAverage_net_err herr, Except.bind],
      opsURL snapshot, hmemN _ (by simp [nonLatencyURLs]), herr⟩
  have e1 := getAverage_ok h1.1 h1.2
  rcases hlatv (springURL snapshot bucket "/latency_set") (by simp)
    with ⟨⟨s2, e2⟩, hsafe2⟩ | ⟨er, herr, hLt, hnet2⟩
  swap
  · right
    exact ⟨er, by simp only [buildRecord, e1, herr, Except.bind],
      springURL snapshot bucket "/latency_set", hmemLat _ hLt (by simp), hnet2⟩
  rcases hlatv (springURL snapshot bucket "/latency_get") (by simp)
    with ⟨⟨s3, e3⟩, hsafe3⟩ | ⟨er, herr, hLt, hnet3⟩
  swap
  · right
    exact ⟨er, by simp only [buildRecord, e1, e2, herr, Except.bind],
      springURL snapshot bucket "/latency_get", hmemLat _ hLt (by simp), hnet3⟩
  rcases hmix2 (nsURL snapshot bucket "/avg_disk_update_time") (by simp [nonLatencyURLs])
    with h4 | ⟨er, herr⟩
  swap
  · right
    exact ⟨er, by simp only [buildRecord, e1, e2, e3, getAverage_net_err herr, Except.bind],
      nsURL snapshot bucket "/avg_disk_update_time", hmemN _ (by simp [nonLatencyURLs]), herr⟩
  have e4 := getAverage_ok h4.1 h4.2
  rcases hmix2 (nsURL snapshot bucket "/avg_disk_commit_time") (by simp [nonLatencyURLs])
    with h5 | ⟨er, herr⟩
  swap
  · right
    exact ⟨er, by simp only [buildRecord, e1, e2, e3, e4, getAverage_net_err herr, Except.bind],
      nsURL snapshot bucket "/avg_disk_commit_time", hmemN _ (by simp [nonLatencyURLs]), herr⟩
  have e5 := getAverage_ok h5.1 h5.2
  rcases hmix2 (nsURL snapshot bucket "/avg_bg_wait_time") (by simp [nonLatencyURLs])
    with h6 | ⟨er, herr⟩
  swap
  · right
    exact ⟨er, by simp only [buildRecord, e1, e2, e3, e4, e5, getAverage_net_err herr,
        Except.bind],
      nsURL snapshot bucket "/avg_bg_wait_time", hmemN _ (by simp [nonLatencyURLs]), herr⟩
  have e6 := getAverage_ok h6.1 h6.2
  rcases @getAvgList_mix env g (nodes.map (fun n => iostatURL snapshot n "/data_rps")) true
      (fun u hu => hmix2 u (by simp only [nonLatencyURLs, List.mem_append]; tauto))
      (fun _ => by simpa using hnodes)
    with ⟨hall7, e7⟩ | ⟨er, herr, u, hu, herru⟩
  swap
  · right
    exact ⟨er, by simp only [buildRecord, e1, e2, e3, e4, e5, e6, herr, Except.bind],
      u, hmemN u (by simp only [nonLatencyURLs, List.mem_append]; tauto), herru⟩
  rcases @getAvgList_mix env g (nodes.map (fun n => iostatURL snapshot n "/data_wps")) true
      (fun u hu => hmix2 u (by simp only [nonLatencyURLs, List.mem_append]; tauto))
      (fun _ => by simpa using hnodes)
    with ⟨hall8, e8⟩ | ⟨er, herr, u, hu, herru⟩
  swap
  · right
    exact ⟨er, by simp only [buildRecord, e1, e2, e3, e4, e5, e6, e7, herr, Except.bind],
      u, hmemN u (by simp only [nonLatencyURLs, List.mem_append]; tauto), herru⟩
  rcases @getAvgList_mix env g (nodes.map (fun n => iostatURL snapshot n "/data_rbps")) true
      (fun u hu => hmix2 u (by simp only [nonLatencyURLs, List.mem_append]; tauto))
      (fun _ => by simpa using hnodes)
    with ⟨hall9, e9⟩ | ⟨er, herr, u, hu, herru⟩
  swap
  · right
    exact ⟨er, by simp only [buildRecord, e1, e2, e3, e4, e5, e6, e7, e8, herr, Except.bind],
      u, hmemN u (by simp only [nonLatencyURLs, List.mem_append]; tauto), herru⟩
  rcases @getAvgList_mix env g (nodes.map (fun n => iostatURL snapshot n "/data_wbps")) true
      (fun u hu => hmix2 u (by simp only [nonLatencyURLs, List.mem_append]; tauto))
      (fun _ => by simpa using hnodes)
    with ⟨hall10, e10⟩ | ⟨er, herr, u, hu, herru⟩
  swap
  · right
    exact ⟨er, by simp only [buildRecord, e1, e2, e3, e4, e5, e6, e7, e8, e9, herr,
        Except.bind],
      u, hmemN u (by simp only [nonLatencyURLs, List.mem_append]; tauto), herru⟩
  rcases hmix2 (nsURL snapshot bucket "/couch_total_disk_size") (by simp [nonLatencyURLs])
    with h11 | ⟨er, herr⟩
  swap
  · right
    exact ⟨er, by simp only [buildRecord, e1, e2, e3, e4, e5, e6, e7, e8, e9, e10,
        getAverage_net_err herr, Except.bind],
      nsURL snapshot bucket "/couch_total_disk_size", hmemN _ (by simp [nonLatencyURLs]), herr⟩
  have e11 := getAverage_ok h11.1 h11.2
  have e11m := getMax_ok h11.1
  rcases hmix2 (nsURL snapshot bucket "/mem_used") (by simp [nonLatencyURLs])
    with h12 | ⟨er, herr⟩
  swap
  · right
    exact ⟨er, by simp only [buildRecord, e1, e2, e3, e4, e5, e6, e7, e8, e9, e10, e11, e11m,
        getAverage_net_err herr, Except.bind],
      nsURL snapshot bucket "/mem_used", hmemN _ (by simp [nonLatencyURLs]), herr⟩
  have e12 := getAverage_ok h12.1 h12.2
  rcases @getAvgList_mix env g (nodes.map (fun n => atopURL snapshot n "/memcached_rss")) false
      (fun u hu => hmix2 u (by simp only [nonLatencyURLs, List.mem_append]; tauto))
      (fun hc => by simp at hc)
    with ⟨hall13, e13⟩ | ⟨er, herr, u, hu, herru⟩
  swap
  · right
    exact ⟨er, by simp only [buildRecord, e1, e2, e3, e4, e5, e6, e7, e8, e9, e10, e11, e11m,
        e12, herr, Except.bind],
      u, hmemN u (by simp only [nonLatencyURLs, List.mem_append]; tauto), herru⟩
  rcases @getAvgList_mix env g (nodes.map (fun n => atopURL snapshot n "/memcached_cpu")) true
      (fun u hu => hmix2 u (by simp only [nonLatencyURLs, List.mem_append]; tauto))
      (fun _ => by simpa using hnodes)
    with ⟨hall14, e14⟩ | ⟨er, herr, u, hu, herru⟩
  swap
  · right
    exact ⟨er, by simp only [buildRecord, e1, e2, e3, e4, e5, e6, e7, e8, e9, e10, e11, e11m,
        e12, e13, herr, Except.bind],
      u, hmemN u (by simp only [nonLatencyURLs, List.mem_append]; tauto), herru⟩
  left
  constructor
  · intro u hu er hco
    unfold recordFetchURLs at hu
    rcases List.mem_append.1 hu with hlat | hnl
    · cases hL : hasLatency with
      | false =>
        rw [hL] at hlat
        simp at hlat
      | true =>
        rw [hL] at hlat
        simp only [if_true] at hlat
        simp only [List.mem_cons, List.not_mem_nil, or_false] at hlat
        rcases hlat with rfl | rfl
        · exact hsafe2 er hL hco
        · exact hsafe3 er hL hco
    · simp only [nonLatencyURLs, List.mem_append, List.mem_cons, List.not_mem_nil,
        or_false, or_assoc] at hnl
      rcases hnl with rfl | rfl | rfl | rfl | rfl | rfl | hm | hm | hm | hm | hm | hm
      · rw [h1.1] at hco
        exact Except.noConfusion hco
      · rw [h4.1] at hco
        exact Except.noConfusion hco
      · rw [h5.1] at hco
        exact Except.noConfusion hco
      · rw [h6.1] at hco
        exact Except.noConfusion hco
      · rw [h11.1] at hco
        exact Except.noConfusion hco
      · rw [h12.1] at hco
        exact Except.noConfusion hco
      · rw [(hall7 u hm).1] at hco
        exact Except.noConfusion hco
      · rw [(hall8 u hm).1] at hco
        exact Except.noConfusion hco
      · rw [(hall9 u hm).1] at hco
        exact Except.noConfusion hco
      · rw [(hall10 u hm).1] at hco
        exact Except.noConfusion hco
      · rw [(hall13 u hm).1] at hco
        exact Except.noConfusion hco
      · rw [(hall14 u hm).1] at hco
        exact Except.noConfusion hco
  · simp only [buildRecord, e1, e2, e3, e4, e5, e6, e7, e8, e9, e10, e11, e11m, e12, e13, e14,
      Except.bind]
    exact ⟨_, rfl⟩

/-- A `buildRecord` failure propagates out of the loop body unchanged. -/
theorem runJob_buildRecord_err (env : Env) (output_dir job t : String)
    (sc bc : List Char) (nr : List (List Char)) (err : PyError)
    (hlen : 2 ≤ (pySplitColon job).length)
    (hnet : env.net (consoleURL ((pySplitColon job).getD 0 "") ((pySplitColon job).getD 1 ""))
      = .ok (.text t))
    (hsnap : (findSub snapMarker t.data).isSome = true)
    (hsc : scrapeSnapshot t.data = .ok sc)
    (hnr : scrapeNodes t.data = .ok nr)
    (hbc : scrapeBucket t.data = .ok bc)
    (hbr : buildRecord env ((pySplitColon job).getD 0 "") ((pySplitColon job).getD 1 "")
        (if (pySplitColon job).length = 3 then (pySplitColon job).getD 2 "" else "")
        (String.mk sc) (String.mk bc) (nr.dedup.map String.mk) (hasLatencyOf t)
      = .error err) :
    runJob env output_dir job = .error err := by
  simp only [List.getD_eq_getElem?_getD] at hnet hbr
  unfold runJob
  rw [if_neg (by omega)]
  have hne2 : findSub snapMarker t.data ≠ none := Option.isSome_iff_ne_none.1 hsnap
  simp [downloadData, hnet, asText, hne2, hsc, hnr, hbc, hbr]

/-! ## Claim theorems -/

/-- Claim C1, counterexample: `getMax` does not return the maximum observed
value on every series.  For the series `[[0,-5]]` the only observed value
is `-5`, yet `getMax` returns `0.0` (its accumulator starts at `0.0` and
only strictly larger values replace it). -/
theorem getMax_negative_counterexample :
    getMax envSeriesNeg "u" = .ok 0 ∧
    (∀ v ∈ [((0 : Rat), (-5 : Rat))].map Prod.snd, v = -5) ∧
    (0 : Rat) ≠ -5 := by
  refine ⟨?_, by simp, by norm_num⟩
  rw [@getMax_ok envSeriesNeg "u" [(0, -5)] rfl]
  norm_num

/-- Claim C1 (amended): for every metric series, `getMax` returns the
maximum of `0.0` and the observed values: a nonnegative value that bounds
every second component and is either `0.0` or one of them; on the empty
series it is `0.0` without error. -/
theorem getMax_clamped_max (env : Env) (url : String) (xs : List (Rat × Rat))
    (h : env.net url = .ok (.series xs)) :
    ∃ v, getMax env url = .ok v ∧ 0 ≤ v ∧ (∀ p ∈ xs, p.2 ≤ v) ∧
      (v = 0 ∨ ∃ p ∈ xs, p.2 = v) := by
  obtain ⟨h1, h2, h3⟩ := getMax_foldl_spec xs 0
  exact ⟨_, getMax_ok h, h1, h2, h3⟩

/-- Claim C1 witness: the amended statement at the series
`[[0,2],[1,4],[2,6]]`, where the returned value is `6.0`; and at `[]`,
where it is `0.0`. -/
theorem getMax_clamped_max_witness :
    (∃ v, getMax envSeries246 "u" = .ok v ∧ 0 ≤ v ∧
      (∀ p ∈ [((0 : Rat), (2 : Rat)), (1, 4), (2, 6)], p.2 ≤ v) ∧
      (v = 0 ∨ ∃ p ∈ [((0 : Rat), (2 : Rat)), (1, 4), (2, 6)], p.2 = v)) ∧
    getMax envSeries246 "u" = .ok 6 ∧
    getMax envC4 "u2" = .ok 0 := by
  refine ⟨getMax_clamped_max envSeries246 "u" _ rfl, ?_, ?_⟩
  · rw [@getMax_ok envSeries246 "u" [(0, 2), (1, 4), (2, 6)] rfl]
    norm_num
  · rw [@getMax_ok envC4 "u2" [] rfl]
    norm_num

/-- Claim C2, counterexample: the exception raised by `downloadData` does
not carry the offending URL.  Its message is the fixed prefix plus the
`repr` of the transport error: the URL does not occur in it, and two
different URLs that fail the same way raise equal exceptions. -/
theorem downloadData_msg_lacks_url :
    downloadData envErr "http://cbmonitor.sc.couchbase.com:8080/x" =
      .error (.exception (urlopenErrMsg ++ "timeout")) ∧
    findSub "http://cbmonitor.sc.couchbase.com:8080/x".data
      (urlopenErrMsg ++ "timeout").data = none ∧
    downloadData envErr "http://cbmonitor.sc.couchbase.com:8080/x" =
      downloadData envErr "http://other.host/y" := by
  refine ⟨rfl, by decide, rfl⟩

/-- Claim C2 (amended): on a transport error at any downloaded URL,
`downloadData` raises an exception whose message is the fixed VPN hint
plus the `repr` of the underlying error (not containing the URL), and the
exception propagates uncaught, terminating the whole run with only the
files written for prior jobs and no CSV.  Three conjuncts: the exception
raised by `downloadData`; a console-log fetch failing aborts the run; a
transport failure at any of the metric URLs the record build downloads
(the job's fetch set `recordFetchURLs`, where every URL either serves a
series or fails and at least one fails) aborts the run with the uncaught
`downloadData` exception of a failed URL. -/
theorem downloadData_error_aborts_run :
    (∀ (env : Env) (url e : String), env.net url = .error e →
      downloadData env url = .error (.exception (urlopenErrMsg ++ e))) ∧
    (∀ (env : Env) (out job e : String) (rest : List String)
      (files : List (String × Record)) (last : Option Record),
      2 ≤ (pySplitColon job).length →
      env.net (consoleURL ((pySplitColon job).getD 0 "") ((pySplitColon job).getD 1 ""))
        = .error e →
      runJobs env out (job :: rest) files last =
        ⟨files, none, none, some (.exception (urlopenErrMsg ++ e))⟩) ∧
    (∀ (env : Env) (out job t : String) (rest : List String)
      (files : List (String × Record)) (last : Option Record)
      (sc bc : List Char) (nr : List (List Char)) (g : String → List (Rat × Rat)),
      2 ≤ (pySplitColon job).length →
      env.net (consoleURL ((pySplitColon job).getD 0 "") ((pySplitColon job).getD 1 ""))
        = .ok (.text t) →
      (findSub snapMarker t.data).isSome = true →
      scrapeSnapshot t.data = .ok sc →
      scrapeNodes t.data = .ok nr →
      scrapeBucket t.data = .ok bc →
      nr.dedup.map String.mk ≠ [] →
      (∀ u ∈ recordFetchURLs (String.mk sc) (String.mk bc) (nr.dedup.map String.mk)
          (hasLatencyOf t),
        (env.net u = .ok (.series (g u)) ∧ g u ≠ []) ∨ ∃ er, env.net u = .error er) →
      (∃ u ∈ recordFetchURLs (String.mk sc) (String.mk bc) (nr.dedup.map String.mk)
          (hasLatencyOf t), ∃ er, env.net u = .error er) →
      ∃ er, runJobs env out (job :: rest) files last =
          ⟨files, none, none, some (.exception (urlopenErrMsg ++ er))⟩ ∧
        ∃ u ∈ recordFetchURLs (String.mk sc) (String.mk bc) (nr.dedup.map String.mk)
          (hasLatencyOf t), env.net u = .error er) := by
  refine ⟨?_, ?_, ?_⟩
  · intro env url e h
    simp [downloadData, h]
  · intro env out job e rest files last hlen hnet
    have hj := @runJob_console_err env out job e hlen hnet
    simp [runJobs, hj]
  · intro env out job t rest files last sc bc nr g hlen hnet hsnap hsc hnr hbc hnodes hmix hfail
    rcases buildRecord_mix env ((pySplitColon job).getD 0 "") ((pySplitColon job).getD 1 "")
        (if (pySplitColon job).length = 3 then (pySplitColon job).getD 2 "" else "")
        (String.mk sc) (String.mk bc) (nr.dedup.map String.mk) (hasLatencyOf t) g hnodes hmix
      with ⟨hno, _⟩ | ⟨er, herr, u, hu, herru⟩
    · obtain ⟨u, hu, er, herru⟩ := hfail
      exact absurd herru (hno u hu er)
    · have hjob := runJob_buildRecord_err env out job t sc bc nr _ hlen hnet hsnap hsc hnr hbc herr
      refine ⟨er, ?_, u, hu, herru⟩
      simp [runJobs, hjob]

/-- Claim C2 witness: the amended statement at concrete runs — a failing
download, a one-job run whose console fetch fails, and a one-job run whose
console log resolves but whose `mem_used` metric URL fails. -/
theorem downloadData_error_aborts_run_witness :
    (downloadData envErr "http://x/y" = .error (.exception (urlopenErrMsg ++ "timeout")) ∧
    runJobs envErr "D" ["p:1"] [] none =
      ⟨[], none, none, some (.exception (urlopenErrMsg ++ "timeout"))⟩) ∧
    (∃ er, runJobs envC2m "D" ["p:1"] [] none =
        ⟨[], none, none, some (.exception (urlopenErrMsg ++ er))⟩ ∧
      ∃ u ∈ recordFetchURLs (String.mk "s".data) (String.mk "b".data)
          ((["1234".data].dedup).map String.mk) (hasLatencyOf c7log),
        envC2m.net u = .error er) := by
  refine ⟨⟨downloadData_error_aborts_run.1 envErr "http://x/y" "timeout" rfl,
    downloadData_error_aborts_run.2.1 envErr "D" "p:1" "timeout" [] [] none (by decide) rfl⟩, ?_⟩
  refine downloadData_error_aborts_run.2.2 envC2m "D" "p:1" c7log [] [] none
    "s".data "b".data ["1234".data] (fun _ => [(0, 2)])
    (by decide) (by decide) (by decide) (by decide) (by decide) (by decide) (by decide)
    ?_ ?_
  · intro u hu
    have hl : recordFetchURLs (String.mk "s".data) (String.mk "b".data)
        ((["1234".data].dedup).map String.mk) (hasLatencyOf c7log) =
        ["http://cbmonitor.sc.couchbase.com:8080/ns_servers/ops",
         "http://cbmonitor.sc.couchbase.com:8080/ns_serversb/avg_disk_update_time",
         "http://cbmonitor.sc.couchbase.com:8080/ns_serversb/avg_disk_commit_time",
         "http://cbmonitor.sc.couchbase.com:8080/ns_serversb/avg_bg_wait_time",
         "http://cbmonitor.sc.couchbase.com:8080/ns_serversb/couch_total_disk_size",
         "http://cbmonitor.sc.couchbase.com:8080/ns_serversb/mem_used",
         "http://cbmonitor.sc.couchbase.com:8080/iostats1234/data_rps",
         "http://cbmonitor.sc.couchbase.com:8080/iostats1234/data_wps",
         "http://cbmonitor.sc.couchbase.com:8080/iostats1234/data_rbps",
         "http://cbmonitor.sc.couchbase.com:8080/iostats1234/data_wbps",
         "http://cbmonitor.sc.couchbase.com:8080/atops1234/memcached_rss",
         "http://cbmonitor.sc.couchbase.com:8080/atops1234/memcached_cpu"] := by decide
    rw [hl] at hu
    simp only [List.mem_cons, List.not_mem_nil, or_false] at hu
    rcases hu with rfl | rfl | rfl | rfl | rfl | rfl | rfl | rfl | rfl | rfl | rfl | rfl <;>
      first
        | (left; exact ⟨by decide, by decide⟩)
        | (right; exact ⟨"refused", by decide⟩)
  · exact ⟨nsURL (String.mk "s".data) (String.mk "b".data) "/mem_used",
      by decide, "refused", by decide⟩

/-- Claim C4: for every series served at a URL, `getAverage` returns the
arithmetic mean of the second components when the series is nonempty, and
fails with `ZeroDivisionError` exactly when it is empty. -/
theorem getAverage_mean_xor_zerodiv (env : Env) (url : String) (xs : List (Rat × Rat))
    (h : env.net url = .ok (.series xs)) :
    (xs ≠ [] → getAverage env url = .ok (meanOf xs)) ∧
    (xs = [] → getAverage env url = .error .zeroDivisionError) :=
  ⟨fun hne => getAverage_ok h hne,
   fun he => getAverage_empty (by rw [← he]; exact h)⟩

/-- Claim C4 witness: mean `4.0` on `[[0,2],[1,4],[2,6]]`, and
`ZeroDivisionError` on `[]`. -/
theorem getAverage_mean_xor_zerodiv_witness :
    getAverage envC4 "u1" = .ok 4 ∧
    getAverage envC4 "u2" = .error .zeroDivisionError := by
  have h1 := (getAverage_mean_xor_zerodiv envC4 "u1" [(0, 2), (1, 4), (2, 6)] rfl).1 (by simp)
  have h2 := (getAverage_mean_xor_zerodiv envC4 "u2" [] rfl).2 rfl
  refine ⟨?_, h2⟩
  rw [h1]
  norm_num [meanOf]

/-- Claim C5: for every nonempty URL list whose series all resolve and are
nonempty, `getAverageFromList` returns the average of the per-URL means
when `per_single_node` is true, and their sum when it is false. -/
theorem getAverageFromList_mean_or_sum (env : Env) (urls : List String)
    (per : Bool) (g : String → List (Rat × Rat))
    (hne : urls ≠ [])
    (h : ∀ u ∈ urls, env.net u = .ok (.series (g u)) ∧ g u ≠ []) :
    getAverageFromList env urls per =
      .ok (if per then (urls.map (fun u => meanOf (g u))).sum / (urls.length : Rat)
           else (urls.map (fun u => meanOf (g u))).sum) :=
  getAvgList_ok h (fun _ => hne)

/-- Claim C5 witness: over the two single-value series `[[0,10]]` and
`[[0,20]]`, the result is `15.0` with `per_single_node` and `30.0`
without. -/
theorem getAverageFromList_mean_or_sum_witness :
    getAverageFromList envC5 ["u1", "u2"] true = .ok 15 ∧
    getAverageFromList envC5 ["u1", "u2"] false = .ok 30 := by
  have hh : ∀ u ∈ ["u1", "u2"], envC5.net u =
      .ok (.series (if u = "u1" then [((0 : Rat), (10 : Rat))] else [(0, 20)])) ∧
      (if u = "u1" then [((0 : Rat), (10 : Rat))] else [((0 : Rat), (20 : Rat))]) ≠ [] := by
    decide
  have h1 := getAverageFromList_mean_or_sum envC5 ["u1", "u2"] true _ (by simp) hh
  have h2 := getAverageFromList_mean_or_sum envC5 ["u1", "u2"] false _ (by simp) hh
  have hne : ("u2" : String) ≠ "u1" := by decide
  constructor
  · rw [h1]
    norm_num [meanOf, hne]
  · rw [h2]
    norm_num [meanOf, hne]

/-- Claim C3: a job whose console log lacks `snapshot=` is skipped — the
loop state is untouched (so no JSON file and no CSV row come from it) and
the remaining jobs are processed exactly as if the job were absent. -/
theorem snapshot_missing_skips_job (env : Env) (out job : String) (rest : List String)
    (files : List (String × Record)) (last : Option Record) (t : String)
    (hlen : 2 ≤ (pySplitColon job).length)
    (hnet : env.net (consoleURL ((pySplitColon job).getD 0 "") ((pySplitColon job).getD 1 ""))
      = .ok (.text t))
    (hsnap : findSub snapMarker t.data = none) :
    runJobs env out (job :: rest) files last = runJobs env out rest files last := by
  have hj := @runJob_skip env out job t hlen hnet hsnap
  simp [runJobs, hj]

/-- Claim C3 witness: a concrete two-job run where the first job's log has
no marker behaves like the run over the remaining job alone. -/
theorem snapshot_missing_skips_job_witness :
    runJobs envNoMarker "D" ["p:1", "q:2"] [] none =
      runJobs envNoMarker "D" ["q:2"] [] none :=
  snapshot_missing_skips_job envNoMarker "D" "p:1" ["q:2"] [] none
    "build aborted, nothing here" (by decide) rfl (by decide)

/-- Claim C6: a job whose console log contains `snapshot=` but no
`Adding new bucket` line makes `re.search(...).group(0)` raise an
`AttributeError`, which propagates uncaught: the run stops there with only
previously written files, no CSV, and no further jobs processed — unlike
the snapshot-missing case, which merely skips the job. -/
theorem bucket_missing_aborts_run (env : Env) (out job : String) (rest : List String)
    (files : List (String × Record)) (last : Option Record) (t : String)
    (hlen : 2 ≤ (pySplitColon job).length)
    (hnet : env.net (consoleURL ((pySplitColon job).getD 0 "") ((pySplitColon job).getD 1 ""))
      = .ok (.text t))
    (hsnap : (findSub snapMarker t.data).isSome = true)
    (hbucket : findSub bucketMarker t.data = none) :
    runJobs env out (job :: rest) files last = ⟨files, none, none, some .attributeError⟩ := by
  have hj := @runJob_bucket_err env out job t hlen hnet hsnap hbucket
  simp [runJobs, hj]

/-- Claim C6 witness: a concrete log `snapshot=s17` with no bucket line
aborts a two-job run at the first job with an `AttributeError`. -/
theorem bucket_missing_aborts_run_witness :
    runJobs envSnapOnly "D" ["p:1", "q:2"] [] none =
      ⟨[], none, none, some .attributeError⟩ :=
  bucket_missing_aborts_run envSnapOnly "D" "p:1" ["q:2"] [] none
    "snapshot=s17\nno bucket line\n" (by decide) rfl (by decide) (by decide)

/-- Claim C10, counterexample: when every job is skipped, `data.csv` IS
created — `open(csv_file, "wb")` runs (creating an empty file) before the
`NameError` on `data.keys()` — so "data.csv is never created" fails; the
file merely stays empty. -/
theorem all_skipped_csv_still_created :
    (runScript envNoMarker "D" ["p:1"]).err = some .nameError ∧
    (runScript envNoMarker "D" ["p:1"]).csvFile = some "D/data.csv" ∧
    (runScript envNoMarker "D" ["p:1"]).csvContent = none := by
  decide

/-- Claim C10 (amended): if every job in the list is skipped for a missing
`snapshot=` marker, no JSON file is written and the CSV epilogue opens
`data.csv` (creating it empty) and then dies with a `NameError` on the
never-bound `data`, so the file receives no header and no rows. -/
theorem all_skipped_nameerror (env : Env) (out : String) (jobs : List String)
    (h : ∀ job ∈ jobs, 2 ≤ (pySplitColon job).length ∧
      ∃ t, env.net (consoleURL ((pySplitColon job).getD 0 "") ((pySplitColon job).getD 1 ""))
            = .ok (.text t) ∧
           findSub snapMarker t.data = none) :
    runScript env out jobs = ⟨[], some (out ++ "/" ++ "data.csv"), none, some .nameError⟩ := by
  unfold runScript
  induction jobs with
  | nil => rfl
  | cons job rest ih =>
    obtain ⟨hlen, t, hnet, hsnap⟩ := h job (List.mem_cons_self _ _)
    have hj := @runJob_skip env out job t hlen hnet hsnap
    simp only [runJobs, hj]
    exact ih (fun j hj2 => h j (List.mem_cons_of_mem _ hj2))

/-- Claim C10 witness: the amended statement at a concrete one-job run
whose log lacks the marker. -/
theorem all_skipped_nameerror_witness :
    runScript envNoMarker "D" ["p:1"] =
      ⟨[], some ("D" ++ "/" ++ "data.csv"), none, some .nameError⟩ :=
  all_skipped_nameerror envNoMarker "D" ["p:1"] (by
    intro job hj
    simp only [List.mem_singleton] at hj
    subst hj
    exact ⟨by decide, "build aborted, nothing here", rfl, by decide⟩)

/-- Claim C7: on job list `["p:1", "p:2:my label"]` with output directory
`D` and all downloads succeeding, the run writes `D/p-1.json` then
`D/p-2.json`, errors nowhere, and writes `D/data.csv` with exactly two
data rows in job-list order (row 1 starts with the `job` value `p:1`,
row 2 with `p:2`) under a header equal to the key list of the last
processed job's record. -/
theorem two_jobs_json_and_csv :
    c7run.jsonFiles.map Prod.fst = ["D/p-1.json", "D/p-2.json"] ∧
    c7run.err = none ∧
    c7run.csvFile = some "D/data.csv" ∧
    c7run.csvContent.map (fun c => c.2.length) = some 2 ∧
    c7run.csvContent.map (fun c => c.1) =
      some (((c7run.jsonFiles.map Prod.snd).getLast?.getD []).map Prod.fst) ∧
    c7run.csvContent.map (fun c => c.2.map (fun row => row.head?)) =
      some [some "p:1", some "p:2"] := by
  decide

/-- Claim C8: `hasLatency` is exactly "the log mentions `spring_latency`".
When the marker is absent the record's two latency fields are the literal
`N/A` and the result does not depend on what the network returns at the
two latency URLs (no hypothesis constrains them, so they may even fail);
when the marker is present both fields are the two-decimal formatted means
of the corresponding series. -/
theorem hasLatency_gates_latency_fields (env : Env)
    (project number label snapshot bucket : String)
    (nodes : List String) (t : String) (g : String → List (Rat × Rat))
    (hnodes : nodes ≠ [])
    (h : ∀ u ∈ nonLatencyURLs snapshot bucket nodes,
      env.net u = .ok (.series (g u)) ∧ g u ≠ []) :
    (findSub springMarker t.data = none →
      ∃ r, buildRecord env project number label snapshot bucket nodes (hasLatencyOf t) = .ok r ∧
        r.lookup "latency_get" = some "N/A" ∧ r.lookup "latency_set" = some "N/A") ∧
    (∀ lg ls : List (Rat × Rat),
      (findSub springMarker t.data).isSome = true →
      env.net (springURL snapshot bucket "/latency_get") = .ok (.series lg) → lg ≠ [] →
      env.net (springURL snapshot bucket "/latency_set") = .ok (.series ls) → ls ≠ [] →
      ∃ r, buildRecord env project number label snapshot bucket nodes (hasLatencyOf t) = .ok r ∧
        r.lookup "latency_get" = some (formatF2 (meanOf lg)) ∧
        r.lookup "latency_set" = some (formatF2 (meanOf ls))) := by
  have hmem : ∀ u, u ∈ nonLatencyURLs snapshot bucket nodes →
      getAverage env u = .ok (meanOf (g u)) :=
    fun u hu => getAverage_ok (h u hu).1 (h u hu).2
  have hops := hmem (opsURL snapshot) (by simp [nonLatencyURLs])
  have hadu := hmem (nsURL snapshot bucket "/avg_disk_update_time") (by simp [nonLatencyURLs])
  have hadc := hmem (nsURL snapshot bucket "/avg_disk_commit_time") (by simp [nonLatencyURLs])
  have habw := hmem (nsURL snapshot bucket "/avg_bg_wait_time") (by simp [nonLatencyURLs])
  have hctds := hmem (nsURL snapshot bucket "/couch_total_disk_size") (by simp [nonLatencyURLs])
  have hmu := hmem (nsURL snapshot bucket "/mem_used") (by simp [nonLatencyURLs])
  have hmax := getMax_ok (h (nsURL snapshot bucket "/couch_total_disk_size")
    (by simp [nonLatencyURLs])).1
  have hrps := @getAvgList_ok env g (nodes.map (fun n => iostatURL snapshot n "/data_rps")) true
    (fun u hu => h u (by simp only [nonLatencyURLs, List.mem_append]; tauto))
    (fun _ => by simpa using hnodes)
  have hwps := @getAvgList_ok env g (nodes.map (fun n => iostatURL snapshot n "/data_wps")) true
    (fun u hu => h u (by simp only [nonLatencyURLs, List.mem_append]; tauto))
    (fun _ => by simpa using hnodes)
  have hrbps := @getAvgList_ok env g (nodes.map (fun n => iostatURL snapshot n "/data_rbps")) true
    (fun u hu => h u (by simp only [nonLatencyURLs, List.mem_append]; tauto))
    (fun _ => by simpa using hnodes)
  have hwbps := @getAvgList_ok env g (nodes.map (fun n => iostatURL snapshot n "/data_wbps")) true
    (fun u hu => h u (by simp only [nonLatencyURLs, List.mem_append]; tauto))
    (fun _ => by simpa using hnodes)
  have hrss := @getAvgList_ok env g (nodes.map (fun n => atopURL snapshot n "/memcached_rss")) false
    (fun u hu => h u (by simp only [nonLatencyURLs, List.mem_append]; tauto))
    (fun hc => by simp at hc)
  have hcpu := @getAvgList_ok env g (nodes.map (fun n => atopURL snapshot n "/memcached_cpu")) true
    (fun u hu => h u (by simp only [nonLatencyURLs, List.mem_append]; tauto))
    (fun _ => by simpa using hnodes)
  constructor
  · intro hsp
    have hhl : hasLatencyOf t = false := by simp [hasLatencyOf, hsp]
    simp only [buildRecord, hhl, latVal, if_false, Bool.false_eq_true, hops, hadu, hadc, habw,
      hctds, hmu, hmax, hrps, hwps, hrbps, hwbps, hrss, hcpu, Except.bind]
    exact ⟨_, rfl, rfl, rfl⟩
  · intro lg ls hsp hlg hlgne hls hlsne
    have hhl : hasLatencyOf t = true := hsp
    have hg := getAverage_ok hlg hlgne
    have hs := getAverage_ok hls hlsne
    simp only [buildRecord, hhl, latVal, if_true, hg, hs, hops, hadu, hadc, habw,
      hctds, hmu, hmax, hrps, hwps, hrbps, hwbps, hrss, hcpu, Except.bind]
    exact ⟨_, rfl, rfl, rfl⟩

/-- Claim C8 witness: with the two latency URLs failing and the log not
mentioning `spring_latency`, the record is still built with `N/A` latency
fields; with the marker present and the latency series resolving, the
fields are the formatted means. -/
theorem hasLatency_gates_latency_fields_witness :
    (∃ r, buildRecord envC8 "p" "1" "" "s" "b" ["n1"] (hasLatencyOf "aborted early") = .ok r ∧
      r.lookup "latency_get" = some "N/A" ∧ r.lookup "latency_set" = some "N/A") ∧
    (∃ r, buildRecord envSeries246 "p" "1" "" "s" "b" ["n1"]
        (hasLatencyOf "collects spring_latency") = .ok r ∧
      r.lookup "latency_get" = some (formatF2 (meanOf [(0, 2), (1, 4), (2, 6)])) ∧
      r.lookup "latency_set" = some (formatF2 (meanOf [(0, 2), (1, 4), (2, 6)]))) := by
  constructor
  · exact (hasLatency_gates_latency_fields envC8 "p" "1" "" "s" "b" ["n1"]
      "aborted early" c8g (by decide) (by decide)).1 (by decide)
  · exact (hasLatency_gates_latency_fields envSeries246 "p" "1" "" "s" "b" ["n1"]
      "collects spring_latency" (fun _ => [(0, 2), (1, 4), (2, 6)]) (by decide) (by decide)).2
      [(0, 2), (1, 4), (2, 6)] [(0, 2), (1, 4), (2, 6)] (by decide) rfl (by decide) rfl (by decide)

/-! ## Scraping the structured log `mkLog` -/

theorem pyStrip_space_cons {B : List Char}
    (h3 : B.dropWhile isPySpace = B) (h4 : B.reverse.dropWhile isPySpace = B.reverse) :
    pyStrip (' ' :: B) = B := by
  have hsp : isPySpace ' ' = true := rfl
  simp [pyStrip, List.dropWhile_cons, hsp, h3, h4]

theorem drop_len_snapMarker (X : List Char) : (snapMarker ++ X).drop 9 = X := by
  have h : snapMarker.length = 9 := rfl
  rw [← h, List.drop_left]

/-- The snapshot extraction on the structured log line. -/
theorem scrapeSnapshot_mkLog {X : List Char} (rest : List Char)
    (hX1 : '\n' ∉ X) (hX2 : '=' ∉ X) :
    scrapeSnapshot ((snapMarker ++ X) ++ '\n' :: rest) = .ok X := by
  have hpre : isPre snapMarker ((snapMarker ++ X) ++ '\n' :: rest) = true := by
    rw [List.append_assoc]
    exact isPre_of_eq_append _ _
  have hfind := findSub_zero hpre
  have hnlX : '\n' ∉ snapMarker ++ X := by
    intro hc
    rcases List.mem_append.1 hc with hc1 | hc2
    · revert hc1
      decide
    · exact hX1 hc2
  have htake := @takeWhile_line (snapMarker ++ X) (('\n' :: rest).tail) hnlX
  have hfs8 : findSub ['='] snapMarker = some 8 := by decide
  have hfseq := findSub_append_some X hfs8
  have hnone := findSub_singleton_none hX2
  simp only [scrapeSnapshot, searchToEOL, hfind, List.drop_zero]
  rw [show ((snapMarker ++ X) ++ '\n' :: rest).takeWhile (fun c => c != '\n')
      = snapMarker ++ X from htake]
  simp only [pyAfterFirst, hfseq, List.length_singleton]
  rw [show (8 + 1 : Nat) = 9 from rfl, drop_len_snapMarker, hnone]

/-- The bucket extraction on the structured log. -/
theorem scrapeBucket_mkLog {X B : List Char} (rest : List Char)
    (hXb : findSub bucketMarker (snapMarker ++ X) = none)
    (hB1 : '\n' ∉ B) (hB2 : ':' ∉ B)
    (hB3 : B.dropWhile isPySpace = B) (hB4 : B.reverse.dropWhile isPySpace = B.reverse) :
    scrapeBucket ((snapMarker ++ X) ++ '\n' :: ((bucketLinePre ++ B) ++ '\n' :: rest))
      = .ok B := by
  have hnb : '\n' ∉ bucketMarker := by decide
  have hdec : bucketLinePre = bucketMarker ++ [':', ' '] := by decide
  have hpre : isPre bucketMarker ((bucketLinePre ++ B) ++ '\n' :: rest) = true := by
    rw [hdec, List.append_assoc, List.append_assoc]
    exact isPre_of_eq_append _ _
  have hfs := findSub_line ((bucketLinePre ++ B) ++ '\n' :: rest) hXb hnb
  rw [findSub_zero hpre] at hfs
  have hnlB : '\n' ∉ bucketLinePre ++ B := by
    intro hc
    rcases List.mem_append.1 hc with hc1 | hc2
    · revert hc1
      decide
    · exact hB1 hc2
  have hdrop := drop_line (snapMarker ++ X) '\n'
    ((bucketLinePre ++ B) ++ '\n' :: rest)
  have htake := @takeWhile_line (bucketLinePre ++ B) rest hnlB
  have hsplit : bucketLinePre ++ B = (bucketMarker ++ [':']) ++ (' ' :: B) := by
    rw [hdec]
    simp
  have hfs17 : findSub [':'] (bucketMarker ++ [':']) = some 17 := by decide
  have hfscolon : findSub [':'] (bucketLinePre ++ B) = some 17 := by
    rw [hsplit]
    exact findSub_append_some _ hfs17
  have hdrop18 : (bucketLinePre ++ B).drop 18 = ' ' :: B := by
    rw [hsplit]
    have h18 : (bucketMarker ++ [':']).length = 18 := rfl
    rw [← h18, List.drop_left]
  have hnocolon : findSub [':'] (' ' :: B) = none := by
    apply findSub_singleton_none
    intro hc
    rcases List.mem_cons.1 hc with hc1 | hc2
    · exact absurd hc1 (by decide)
    · exact hB2 hc2
  simp only [scrapeBucket, searchToEOL, hfs, Option.map_some', List.length_nil]
  rw [Nat.zero_add, hdrop, htake]
  simp only [pyAfterFirst, hfscolon, List.length_singleton]
  rw [show (17 + 1 : Nat) = 18 from rfl, hdrop18, hnocolon]
  rw [pyStrip_space_cons hB3 hB4]

/-- One node-line match resolved by `nodeOfMatch`. -/
theorem nodeOfMatch_memcLine {ip : List Char}
    (hf : findSub fromSep (' ' :: ip) = none)
    (hs : ip.dropWhile isPySpace = ip) (hr : ip.reverse.dropWhile isPySpace = ip.reverse) :
    nodeOfMatch (memcMarker ++ ' ' :: ip) = .ok (stripDots ip) := by
  have hfrom : findSub fromSep memcMarker = some 23 := by decide
  have hfs := findSub_append_some (' ' :: ip) hfrom
  have hdrop27 : (memcMarker ++ ' ' :: ip).drop 27 = ' ' :: ip := by
    have h27 : memcMarker.length = 27 := rfl
    rw [← h27, List.drop_left]
  simp only [nodeOfMatch, pyAfterFirst, hfs]
  rw [show (23 + fromSep.length : Nat) = 27 from rfl, hdrop27, hf]
  rw [pyStrip_space_cons hs hr]
  rfl

/-- The `re.findall` pass over the structured log returns exactly the
three memcached lines. -/
theorem findAll_mkLog {X B ip1 ip2 ip3 : List Char}
    (hXm : findSub memcMarker (snapMarker ++ X) = none)
    (hBm : findSub memcMarker (bucketLinePre ++ B) = none)
    (h1n : '\n' ∉ ip1) (h2n : '\n' ∉ ip2) (h3n : '\n' ∉ ip3) :
    findAllToEOL memcMarker (mkLog X B ip1 ip2 ip3) =
      [memcMarker ++ ' ' :: ip1, memcMarker ++ ' ' :: ip2, memcMarker ++ ' ' :: ip3] := by
  have hnm : '\n' ∉ memcMarker := by decide
  have hne : memcMarker ≠ [] := by decide
  have hline : ∀ ip : List Char, '\n' ∉ ip → '\n' ∉ memcMarker ++ ' ' :: ip := by
    intro ip hip hc
    rcases List.mem_append.1 hc with hc1 | hc2
    · exact hnm hc1
    · rcases List.mem_cons.1 hc2 with hc3 | hc4
      · exact absurd hc3 (by decide)
      · exact hip hc4
  unfold mkLog
  rw [findAll_lineSkip _ hXm hnm, findAll_lineSkip _ hBm hnm]
  rw [findAll_lineMatch _ (isPre_of_eq_append _ _) (hline ip1 h1n) hne]
  rw [findAll_lineMatch _ (isPre_of_eq_append _ _) (hline ip2 h2n) hne]
  rw [findAll_lineMatch _ (isPre_of_eq_append _ _) (hline ip3 h3n) hne]
  rw [findAll_none (findSub_nil_of_ne hne)]

set_option maxRecDepth 8000 in
/-- Claim C9, counterexample: three *distinct* IP addresses need not give
a 3-element node set, because distinct addresses can coincide after the
dots are stripped.  For `1.23.4.5`, `12.3.4.5` and `1.2.3.4` (pairwise
distinct) the scraper's node list is `12345, 12345, 1234`, whose
de-duplicated set has 2 elements, not 3. -/
theorem nodes_collide_counterexample :
    ("1.23.4.5".data ≠ "12.3.4.5".data ∧ "1.23.4.5".data ≠ "1.2.3.4".data ∧
     "12.3.4.5".data ≠ "1.2.3.4".data) ∧
    scrapeNodes (mkLog "abc".data "bkt".data "1.23.4.5".data "12.3.4.5".data "1.2.3.4".data)
      = .ok ["12345".data, "12345".data, "1234".data] ∧
    (["12345".data, "12345".data, "1234".data].dedup).length = 2 := by
  refine ⟨by decide, by decide, ?_⟩
  decide

/-- Claim C9 (amended): for a console log made of a `snapshot=X` line, an
`Adding new bucket: B` line and three `Getting memcached port from <ip>`
lines — with `X` free of `=`/newlines, `B` free of `:`/newlines/outer
whitespace, no marker text hiding inside the earlier lines, `from` not
recurring inside an address, and addresses free of newlines and outer
whitespace — the scraper extracts snapshot `X`, bucket `B`, and the node
list of the three dot-stripped addresses; the resulting de-duplicated set
has 3 elements exactly when the *stripped* addresses are pairwise distinct
(distinct raw IPs alone do not suffice). -/
theorem scraper_extracts_fields (X B ip1 ip2 ip3 : List Char)
    (hX1 : '\n' ∉ X) (hX2 : '=' ∉ X)
    (hXb : findSub bucketMarker (snapMarker ++ X) = none)
    (hXm : findSub memcMarker (snapMarker ++ X) = none)
    (hB1 : '\n' ∉ B) (hB2 : ':' ∉ B)
    (hB3 : B.dropWhile isPySpace = B) (hB4 : B.reverse.dropWhile isPySpace = B.reverse)
    (hBm : findSub memcMarker (bucketLinePre ++ B) = none)
    (h1n : '\n' ∉ ip1) (h2n : '\n' ∉ ip2) (h3n : '\n' ∉ ip3)
    (h1f : findSub fromSep (' ' :: ip1) = none)
    (h2f : findSub fromSep (' ' :: ip2) = none)
    (h3f : findSub fromSep (' ' :: ip3) = none)
    (h1s : ip1.dropWhile isPySpace = ip1) (h1r : ip1.reverse.dropWhile isPySpace = ip1.reverse)
    (h2s : ip2.dropWhile isPySpace = ip2) (h2r : ip2.reverse.dropWhile isPySpace = ip2.reverse)
    (h3s : ip3.dropWhile isPySpace = ip3) (h3r : ip3.reverse.dropWhile isPySpace = ip3.reverse) :
    scrapeSnapshot (mkLog X B ip1 ip2 ip3) = .ok X ∧
    scrapeBucket (mkLog X B ip1 ip2 ip3) = .ok B ∧
    scrapeNodes (mkLog X B ip1 ip2 ip3) = .ok [stripDots ip1, stripDots ip2, stripDots ip3] ∧
    (stripDots ip1 ≠ stripDots ip2 → stripDots ip1 ≠ stripDots ip3 →
      stripDots ip2 ≠ stripDots ip3 →
      ([stripDots ip1, stripDots ip2, stripDots ip3].dedup).length = 3) := by
  refine ⟨scrapeSnapshot_mkLog _ hX1 hX2, scrapeBucket_mkLog _ hXb hB1 hB2 hB3 hB4, ?_, ?_⟩
  · unfold scrapeNodes
    rw [findAll_mkLog hXm hBm h1n h2n h3n]
    rw [List.mapM_cons, nodeOfMatch_memcLine h1f h1s h1r]
    rw [List.mapM_cons, nodeOfMatch_memcLine h2f h2s h2r]
    rw [List.mapM_cons, nodeOfMatch_memcLine h3f h3s h3r]
    rfl
  · intro d1 d2 d3
    rw [List.dedup_cons_of_not_mem (by simp [d1, d2]),
        List.dedup_cons_of_not_mem (by simp [d3]),
        List.dedup_cons_of_not_mem (by simp), List.dedup_nil]
    rfl

set_option maxRecDepth 8000 in
/-- Claim C9 witness: the amended statement at the concrete log with
snapshot `abc`, bucket `bkt` and addresses `172.23.96.100`, `172.23.96.101`,
`172.23.96.102`, whose stripped forms are pairwise distinct, yielding a
3-element node set. -/
theorem scraper_extracts_fields_witness :
    scrapeSnapshot (mkLog "abc".data "bkt".data
      "172.23.96.100".data "172.23.96.101".data "172.23.96.102".data) = .ok "abc".data ∧
    scrapeBucket (mkLog "abc".data "bkt".data
      "172.23.96.100".data "172.23.96.101".data "172.23.96.102".data) = .ok "bkt".data ∧
    scrapeNodes (mkLog "abc".data "bkt".data
      "172.23.96.100".data "172.23.96.101".data "172.23.96.102".data) =
      .ok [stripDots "172.23.96.100".data, stripDots "172.23.96.101".data,
           stripDots "172.23.96.102".data] ∧
    (stripDots "172.23.96.100".data ≠ stripDots "172.23.96.101".data →
      stripDots "172.23.96.100".data ≠ stripDots "172.23.96.102".data →
      stripDots "172.23.96.101".data ≠ stripDots "172.23.96.102".data →
      ([stripDots "172.23.96.100".data, stripDots "172.23.96.101".data,
        stripDots "172.23.96.102".data].dedup).length = 3) :=
  scraper_extracts_fields "abc".data "bkt".data
    "172.23.96.100".data "172.23.96.101".data "172.23.96.102".data
    (by decide) (by decide) (by decide) (by decide) (by decide) (by decide)
    (by decide) (by decide) (by decide) (by decide) (by decide) (by decide)
    (by decide) (by decide) (by decide) (by decide) (by decide) (by decide)
    (by decide) (by decide) (by decide)
